import Mathlib

/-!
Verification of the POS pricing-rule evaluation and cart-reconciliation engine.

The definitions below are a shallow embedding of the JavaScript sources:
  * `apps/posawesome/frontend/src/lib/pricingEngine.js` (pure rule evaluator),
  * the invoice-item methods module (cart line application `_applyPricingToLine`,
    free-line synchronisation `_syncAutoFreeLines`, and the update-application
    part of server reconciliation `_applyServerPricingRules`).

JavaScript numbers are modelled as rationals (`ℚ`); fields that may be
`undefined`/`null` in a record are modelled as `Option` values.  JavaScript
object identity (needed to state identity-stability of cart lines) is modelled
by an `objId : ℕ` field on cart lines: two live line objects are distinct
objects exactly when their `objId`s differ.
-/

/- `Batteries` marks the rational-number arithmetic irreducible, which blocks
`decide`-based evaluation of the executable model on concrete inputs.  Restoring
the default reducibility only affects elaboration; all proofs still go through
the kernel. -/
set_option allowUnsafeReducibility true in
attribute [semireducible] Rat.mul Rat.inv Rat.add Rat.sub Rat.neg Rat.ofScientific

namespace Posa

/-- JS `x || d` on an optional number: `0`, `null` and `undefined` are falsy. -/
def jsOrQ : Option ℚ → ℚ → ℚ
  | some v, d => if v = 0 then d else v
  | none, d => d

/-- JS truthiness of an optional number (`NaN`/`null`/`undefined`/`0` falsy). -/
def truthyQ : Option ℚ → Bool
  | some v => v != 0
  | none => false

/-- JS truthiness of an optional string (`""`/`null`/`undefined` falsy). -/
def truthyS : Option String → Bool
  | some s => s != ""
  | none => false

/-- JS `a || d` on an optional string, yielding a plain string default. -/
def jsOrS : Option String → String → String
  | some s, d => if s = "" then d else s
  | none, d => d

/-- JS `a || b` on two optional strings, keeping the raw fallback value. -/
def jsOrSO : Option String → Option String → Option String
  | some s, b => if s = "" then b else some s
  | none, b => b

/-- JS falsy-fallback chain `x1 || x2 || ... || d` over optional numbers. -/
def jsChainQ : List (Option ℚ) → ℚ → ℚ
  | [], d => d
  | some v :: rest, d => if v = 0 then jsChainQ rest d else v
  | none :: rest, d => jsChainQ rest d

/-- JS `String.prototype.toLowerCase` (ASCII), written over the character
list so that it evaluates by kernel reduction. -/
def jsToLower (s : String) : String := ⟨s.data.map Char.toLower⟩

/-- String interpolation of a possibly-`undefined` value (JS prints `undefined`). -/
def showOpt : Option String → String
  | some s => s
  | none => "undefined"

/-- `round` of pricingEngine.js at its default precision 6:
`Math.round(v * 10^6) / 10^6` (JS `Math.round x = ⌊x + 1/2⌋` for finite `x`). -/
def roundQ (v : ℚ) : ℚ :=
  ((v * 1000000 + 1 / 2).floor : ℚ) / 1000000

theorem ratFloor_eq_intFloor (q : ℚ) : q.floor = ⌊q⌋ := by
  rw [Rat.floor_def', Rat.floor_def]

/-- Lexicographic strict order on character lists, by code point.  Models the
sign of JS `String.prototype.localeCompare` for the default lexicographic
collation. -/
def lexLtB : List Char → List Char → Bool
  | [], [] => false
  | [], _ :: _ => true
  | _ :: _, [] => false
  | a :: as, b :: bs =>
    if a.toNat < b.toNat then true
    else if b.toNat < a.toNat then false
    else lexLtB as bs

/-- Strict string order used to model `localeCompare`. -/
def strLtB (a b : String) : Bool := lexLtB a.data b.data

/-- The sign of `a.localeCompare(b)`, modelled as `-1 / 0 / 1`. -/
def localeCompareQ (a b : String) : ℚ :=
  if strLtB a b then -1 else if strLtB b a then 1 else 0

/-! ## The pure rule evaluator (`pricingEngine.js`) -/

/-- A quantity slab `{min_qty, rate_or_discount}` of a pricing rule. -/
structure Slab where
  min_qty : Option ℚ
  rate_or_discount : Option ℚ
deriving Repr, DecidableEq

/-- A pricing rule, with all fields read by `pricingEngine.js`.  Optional
numeric/string fields model `undefined`/`null`-able JS properties; boolean
flags model fields used only through truthiness tests. -/
structure Rule where
  name : Option String := none
  specificity : Option ℚ := none
  priority : Option ℚ := none
  rate_or_discount : Option ℚ := none
  margin_rate_or_amount : Option ℚ := none
  free_qty : Option ℚ := none
  free_qty_per_unit : Option ℚ := none
  valid_from : Option ℤ := none
  valid_upto : Option ℤ := none
  customer : Option String := none
  customer_group : Option String := none
  territory : Option String := none
  price_list : Option String := none
  currency : Option String := none
  min_qty : Option ℚ := none
  recurse_for : Option ℚ := none
  slabs : List Slab := []
  rate_or_discount_type : Option String := none
  price_or_discount : Option String := none
  discount_type : Option String := none
  margin_type : Option String := none
  is_free_item_rule : Bool := false
  stop_further_rules : Bool := false
  apply_multiple_pricing_rules : Bool := false
  apply_per_threshold : Bool := false
  is_recursive : Bool := false
  same_item : Bool := false
  free_item : Option String := none
  max_free_qty : Option ℚ := none
  round_free_qty : Bool := false
  free_item_rate : Option ℚ := none
  free_item_base_rate : Option ℚ := none
  base_free_item_rate : Option ℚ := none
  rate_for_free_item : Option ℚ := none
  free_item_price_list_rate : Option ℚ := none
  free_item_base_price_list_rate : Option ℚ := none
  base_for_price_list_rate : Option ℚ := none
  for_price_list_rate : Option ℚ := none
  free_item_discount_amount : Option ℚ := none
  free_item_base_discount_amount : Option ℚ := none
  free_item_discount_percentage : Option ℚ := none
deriving Repr, DecidableEq

/-- The commercial context `{date, customer, customer_group, territory,
price_list, currency}`.  Dates are modelled as timestamps; `none` stands for a
missing or unparseable date (which `inDateRange` treats as "no constraint"). -/
structure Ctx where
  date : Option ℤ := none
  customer : Option String := none
  customer_group : Option String := none
  territory : Option String := none
  price_list : Option String := none
  currency : Option String := none
deriving Repr, DecidableEq

/-- `inDateRange` of pricingEngine.js.  A missing/invalid current date accepts;
each bound is enforced only when present and parseable. -/
def inDateRange (currentDate start stop : Option ℤ) : Bool :=
  match currentDate with
  | none => true
  | some now =>
    (match start with
     | some f => decide (f ≤ now)
     | none => true) &&
    (match stop with
     | some t => decide (now ≤ t)
     | none => true)

/-- One party filter of `matchParty`: a truthy rule value requires a truthy,
equal cart value. -/
def partyOk (rv cv : Option String) : Bool :=
  if truthyS rv then truthyS cv && (rv == cv) else true

/-- `matchParty` of pricingEngine.js. -/
def matchParty (rule : Rule) (customer customerGroup territory : Option String) : Bool :=
  partyOk rule.customer customer && partyOk rule.customer_group customerGroup &&
    partyOk rule.territory territory

/-- `matchPriceListAndCurrency` of pricingEngine.js. -/
def matchPriceListAndCurrency (rule : Rule) (priceList currency : Option String) : Bool :=
  partyOk rule.price_list priceList && partyOk rule.currency currency

/-- The pre-partitioned rule index bundle `{byItem, byGroup, byBrand, general}`;
JS `Map`s are modelled as association lists. -/
structure Indexes where
  byItem : List (String × List Rule) := []
  byGroup : List (String × List Rule) := []
  byBrand : List (String × List Rule) := []
  general : List Rule := []
deriving Repr, DecidableEq

/-- Map lookup guarded by JS truthiness of the key (`item.item_code && map.has(...)`). -/
def lookupBucket (m : List (String × List Rule)) (k : Option String) : List Rule :=
  match k with
  | some s => if s = "" then [] else ((m.find? (fun p => p.1 = s)).map Prod.snd).getD []
  | none => []

/-- `pushUnique` folded over a bucket: append rules whose `name` was not seen. -/
def pushUniqueAll (acc : List Rule) (rules : List Rule) : List Rule :=
  rules.foldl (fun acc r => if acc.any (fun x => x.name == r.name) then acc else acc ++ [r]) acc

/-- One entry of a pricing badge / audit trail `{name, type, value, change}`.
Badge-only details produced during server reconciliation carry no
`value`/`change` keys, hence the `Option`s. -/
structure Detail where
  name : Option String := none
  type : Option String := none
  value : Option ℚ := none
  change : Option ℚ := none
deriving Repr, DecidableEq

/-- Display badge `{label, tooltip, names}`; free-line badges carry no `names`. -/
structure Badge where
  label : String
  tooltip : String
  names : Option (List String) := none
deriving Repr, DecidableEq

/-- A cart line (also the `item` argument of the evaluator).  Optional fields
model JS properties that may be `undefined`; `objId` models JavaScript object
identity (it is not a JS field). -/
structure Line where
  objId : ℕ := 0
  posa_row_id : Option String := none
  name : Option String := none
  item_code : Option String := none
  item_name : Option String := none
  item_group : Option String := none
  brand : Option String := none
  qty : Option ℚ := none
  stock_qty : Option ℚ := none
  base_qty : Option ℚ := none
  base_quantity : Option ℚ := none
  transfer_qty : Option ℚ := none
  conversion_factor : Option ℚ := none
  uom_conversion_factor : Option ℚ := none
  uom : Option String := none
  stock_uom : Option String := none
  rate : Option ℚ := none
  base_rate : Option ℚ := none
  price_list_rate : Option ℚ := none
  base_price_list_rate : Option ℚ := none
  discount_amount : Option ℚ := none
  base_discount_amount : Option ℚ := none
  discount_percentage : Option ℚ := none
  amount : Option ℚ := none
  base_amount : Option ℚ := none
  locked_price : Bool := false
  posa_offer_applied : Bool := false
  _manual_rate_set : Bool := false
  _manual_rate_set_from_uom : Bool := false
  is_free_item : Bool := false
  same_item : Bool := false
  auto_free_source : Option String := none
  free_item_source : Option String := none
  source_rule : Option String := none
  pricing_rule : Option String := none
  parent_row_id : Option String := none
  pricing_rule_badge : Option Badge := none
  pricing_rule_details : List Detail := []
  pricing_rules : Option String := none
  bundle_id : Option String := none
  max_qty : Option ℚ := none
  disable_increment : Bool := false
  _base_actual_qty : Option ℚ := none
  is_stock_item : Option ℚ := none
  allow_negative_stock : Bool := false
deriving Repr, DecidableEq

/-- `collectCandidates` of pricingEngine.js: union of the item/group/brand
buckets and the general bucket, de-duplicated by rule name in encounter order. -/
def collectCandidates (item : Line) (indexes : Indexes) : List Rule :=
  let bucket := pushUniqueAll [] (lookupBucket indexes.byItem item.item_code)
  let bucket := pushUniqueAll bucket (lookupBucket indexes.byGroup item.item_group)
  let bucket := pushUniqueAll bucket (lookupBucket indexes.byBrand item.brand)
  pushUniqueAll bucket indexes.general

/-- `ruleBenefitScore` of pricingEngine.js:
`max(|rate_or_discount|, |margin_rate_or_amount|, |free_qty| + |free_qty_per_unit|)`. -/
def ruleBenefitScore (rule : Rule) : ℚ :=
  let discount := |rule.rate_or_discount.getD 0|
  let margin := |rule.margin_rate_or_amount.getD 0|
  let freebies := |rule.free_qty.getD 0| + |rule.free_qty_per_unit.getD 0|
  max discount (max margin freebies)

/-- `ruleSort` of pricingEngine.js: the comparator value (negative means `a`
sorts before `b`): specificity desc, then priority desc, then benefit score
desc, then `localeCompare` on the names. -/
def ruleSort (a b : Rule) : ℚ :=
  if b.specificity.getD 0 ≠ a.specificity.getD 0 then
    b.specificity.getD 0 - a.specificity.getD 0
  else if b.priority.getD 0 ≠ a.priority.getD 0 then
    b.priority.getD 0 - a.priority.getD 0
  else if ruleBenefitScore b - ruleBenefitScore a ≠ 0 then
    ruleBenefitScore b - ruleBenefitScore a
  else localeCompareQ (jsOrS a.name "") (jsOrS b.name "")

/-- One iteration of the `selectSlab` loop: keep the current candidate unless
this slab qualifies (`min_qty ≤ qty`) and its `min_qty` is no smaller. -/
def selectSlabStep (qty : ℚ) (chosen : Option Slab) (slab : Slab) : Option Slab :=
  let minQty := slab.min_qty.getD 0
  match chosen with
  | none => if minQty ≤ qty then some slab else none
  | some c => if minQty ≤ qty ∧ c.min_qty.getD 0 ≤ minQty then some slab else some c

/-- `selectSlab` of pricingEngine.js: the last slab (in list order) holding the
largest `min_qty ≤ qty`, if any. -/
def selectSlab (rule : Rule) (qty : ℚ) : Option Slab :=
  rule.slabs.foldl (selectSlabStep qty) none

/-- `applyMargin` of pricingEngine.js: margins are computed from the original
base rate. -/
def applyMargin (baseRate : ℚ) (rule : Rule) : ℚ :=
  let marginType := jsOrSO rule.margin_type rule.discount_type
  let marginValue := jsChainQ [rule.margin_rate_or_amount, rule.rate_or_discount] 0
  if marginValue = 0 then baseRate
  else if marginType = some "Amount" then baseRate + marginValue
  else if marginType = some "Percentage" then baseRate * (1 + marginValue / 100)
  else baseRate

/-- `resolveSlabValue` of pricingEngine.js: a present slab value overrides the
rule-level `rate_or_discount`. -/
def resolveSlabValue (rule : Rule) (slab : Option Slab) : ℚ :=
  match slab with
  | some s =>
    match s.rate_or_discount with
    | some v => v
    | none => rule.rate_or_discount.getD 0
  | none => rule.rate_or_discount.getD 0

/-- Result of `applyOneRule`. -/
structure RuleStep where
  newRate : ℚ
  discount : ℚ
  detail : Option Detail
deriving Repr, DecidableEq

/-- `applyOneRule` of pricingEngine.js.  The `Number.isFinite(newRate)` guard
of the source cannot fire over `ℚ` and is omitted. -/
def applyOneRule (currentRate : ℚ) (rule : Rule) (qty baseRate : ℚ) : RuleStep :=
  let slab := selectSlab rule qty
  let value := resolveSlabValue rule slab
  let rawType := jsToLower (jsOrS rule.rate_or_discount_type "")
  let priceMode := jsToLower (jsOrS rule.price_or_discount "")
  let discountType := jsToLower (jsOrS rule.discount_type "")
  let isAmount := rawType = "discount amount" ∨ discountType = "amount"
  let isMargin := discountType = "margin" ∨ truthyS rule.margin_type
  let isPriceOverride :=
    priceMode = "price" ∧ (rawType = "rate" ∨ rawType = "price" ∨ (rawType = "" ∧ discountType = "rate"))
  if rule.is_free_item_rule then ⟨currentRate, 0, none⟩
  else
    let step : ℚ × Option String :=
      if isPriceOverride then
        if isAmount then (currentRate - value, some "Amount")
        else (if value = 0 then currentRate else value, some "Rate")
      else if isMargin then (applyMargin baseRate rule, some (jsOrS rule.margin_type "Margin"))
      else if isAmount then (currentRate - value, some "Amount")
      else (currentRate * (1 - value / 100), some "Rate")
    let newRate := max 0 step.1
    let change := currentRate - newRate
    ⟨newRate, change, some ⟨rule.name, step.2, some value, some change⟩⟩

/-- `isFreeRule` of pricingEngine.js. -/
def isFreeRule (rule : Rule) : Bool :=
  rule.is_free_item_rule || jsToLower (jsOrS rule.price_or_discount "") == "product"

/-- JS `Math.floor` on a rational (`Rat.floor` agrees with `Int.floor`, see
`ratFloor_eq_intFloor`). -/
def jsFloor (v : ℚ) : ℚ := (v.floor : ℚ)

/-- `computeThresholdInfo` of pricingEngine.js: the `(minimum, multiplier)`
pair.  `minimum` follows the `min_qty || recurse_for || 1` fallback chain and
the divisor of the per-threshold multiplier follows `recurse_for || min_qty || 1`
(the trailing `|| 1` of the source can only fire on `NaN`, which `ℚ` has not). -/
def computeThresholdInfo (rule : Rule) (qty : ℚ) : ℚ × ℚ :=
  let minimum := jsChainQ [rule.min_qty, rule.recurse_for] 1
  let multiplier :=
    if rule.apply_per_threshold then
      let divisor := jsChainQ [rule.recurse_for, rule.min_qty] 1
      jsFloor (qty / divisor)
    else if minimum ≤ qty then 1 else 0
  (minimum, multiplier)

/-- A free-item descriptor produced by the evaluator (or rebuilt from a server
response).  Fields spread conditionally in the JS object are `Option`s. -/
structure Freebie where
  item_code : Option String := none
  qty : ℚ := 0
  stock_qty : ℚ := 0
  rule : Option String := none
  same_item : Bool := false
  min_qty : ℚ := 0
  multiplier : ℚ := 0
  apply_per_threshold : Bool := false
  max_free_qty : Option ℚ := none
  threshold_qty : ℚ := 0
  free_qty_per_threshold : ℚ := 0
  uom : Option String := none
  conversion_factor : Option ℚ := none
  parentRowId : Option String := none
  base_rate : Option ℚ := none
  rate : Option ℚ := none
  base_price_list_rate : Option ℚ := none
  price_list_rate : Option ℚ := none
  base_discount_amount : Option ℚ := none
  discount_amount : Option ℚ := none
  discount_percentage : Option ℚ := none
deriving Repr, DecidableEq

/-- The `freePerThreshold` of `applyFreeItemRule`
(`free_qty_per_unit` when truthy, else the flat `free_qty`). -/
def freePerThresholdOf (rule : Rule) : ℚ :=
  if truthyQ rule.free_qty_per_unit then rule.free_qty_per_unit.getD 0
  else rule.free_qty.getD 0

/-- The computed free quantity of `applyFreeItemRule`: multiplier-scaled (or
per-unit-scaled, or flat), then capped by `max_free_qty` when present, then
floored when `round_free_qty` is set. -/
def computedFreeQty (rule : Rule) (effectiveQty : ℚ) : ℚ :=
  let multiplier := (computeThresholdInfo rule effectiveQty).2
  let freeQty :=
    if rule.apply_per_threshold then multiplier * freePerThresholdOf rule
    else if truthyQ rule.free_qty_per_unit then effectiveQty * rule.free_qty_per_unit.getD 0
    else rule.free_qty.getD 0
  let freeQty :=
    match rule.max_free_qty with
    | some m => min freeQty m
    | none => freeQty
  if rule.round_free_qty then jsFloor freeQty else freeQty

/-- `applyFreeItemRule` of pricingEngine.js: threshold multiplier, free
quantity with cap and optional flooring, and the descriptor's pricing
metadata read from the rule's free-item pricing fields. -/
def applyFreeItemRule (rule : Rule) (item : Line) (effectiveQty : ℚ) : Option Freebie :=
  let info := computeThresholdInfo rule effectiveQty
  let minimum := info.1
  let multiplier := info.2
  let thresholdQty := minimum
  let freePerThreshold := freePerThresholdOf rule
  let freeQty := computedFreeQty rule effectiveQty
  if freeQty ≤ 0 then none
  else
    let sameItem := rule.same_item
    let uom := if sameItem then jsOrSO item.stock_uom item.uom else none
    let conversionFactor : Option ℚ := if sameItem then some 1 else none
    let rawBaseRate := rule.free_item_base_rate <|> rule.base_free_item_rate <|> rule.free_item_rate
    let rawDisplayRate := rule.free_item_rate <|> rule.rate_for_free_item
    let baseRate := rawBaseRate <|> rawDisplayRate
    let rawBasePriceListRate :=
      rule.free_item_base_price_list_rate <|> rule.free_item_price_list_rate <|>
        rule.base_for_price_list_rate
    let rawDisplayPriceListRate := rule.free_item_price_list_rate <|> rule.for_price_list_rate
    let basePriceListRate := rawBasePriceListRate <|> rawDisplayPriceListRate <|> baseRate
    let baseDiscount0 := rule.free_item_base_discount_amount <|> rule.free_item_discount_amount
    let baseDiscount :=
      match baseDiscount0, basePriceListRate, baseRate with
      | none, some p, some b => some (max (p - b) 0)
      | d, _, _ => d
    let discountPercentage :=
      rule.free_item_discount_percentage <|>
        (match basePriceListRate with
         | some p => if p ≠ 0 then some (max ((baseDiscount.getD 0 / p) * 100) 0) else none
         | none => none)
    some
      { item_code := if sameItem then item.item_code
          else if truthyS rule.free_item then rule.free_item else item.item_code
        qty := freeQty
        stock_qty := freeQty
        rule := rule.name
        same_item := sameItem
        min_qty := minimum
        multiplier := multiplier
        apply_per_threshold :=
          rule.apply_per_threshold || rule.is_recursive || truthyQ rule.recurse_for
        max_free_qty := rule.max_free_qty
        threshold_qty := thresholdQty
        free_qty_per_threshold := freePerThreshold
        uom := uom
        conversion_factor := conversionFactor
        base_rate := baseRate
        rate := if baseRate.isSome then rawDisplayRate <|> baseRate else none
        base_price_list_rate := basePriceListRate
        price_list_rate :=
          if basePriceListRate.isSome then rawDisplayPriceListRate <|> basePriceListRate else none
        base_discount_amount := baseDiscount
        discount_amount :=
          if baseDiscount.isSome then rule.free_item_discount_amount <|> baseDiscount else none
        discount_percentage := discountPercentage }

/-- Stable insertion sort with the boolean "sorts no later than" relation
`ruleSort a b ≤ 0`; models `Array.prototype.sort` (stable) with the `ruleSort`
comparator. -/
def insertSorted (x : Rule) : List Rule → List Rule
  | [] => [x]
  | y :: ys => if ruleSort x y ≤ 0 then x :: y :: ys else y :: insertSorted x ys

/-- Sort a candidate list by the `ruleSort` comparator. -/
def sortRules (rs : List Rule) : List Rule := rs.foldr insertSorted []

/-- The pricing-rule chain loop of `evaluatePricingRules`: apply rules in
order, stopping after the first applied rule unless it allows chaining, or as
soon as a rule sets `stop_further_rules`. -/
def runChain (rate qty base : ℚ) : List Rule → ℚ × List Detail
  | [] => (rate, [])
  | r :: rest =>
    let step := applyOneRule rate r qty base
    let applied := match step.detail with | some d => [d] | none => []
    if r.stop_further_rules then (step.newRate, applied)
    else if ¬ r.apply_multiple_pricing_rules then (step.newRate, applied)
    else
      let tail := runChain step.newRate qty base rest
      (tail.1, applied ++ tail.2)

/-- The free-item loop of `evaluatePricingRules`: collect descriptors in
order, stopping after a rule with `stop_further_rules`. -/
def runFreeRules (item : Line) (qty : ℚ) : List Rule → List Freebie
  | [] => []
  | r :: rest =>
    let fs := match applyFreeItemRule r item qty with | some f => [f] | none => []
    if r.stop_further_rules then fs else fs ++ runFreeRules item qty rest

/-- The `pricing` half of the evaluator's result. -/
structure PricingOut where
  rate : ℚ
  discountPerUnit : ℚ
  applied : List Detail
deriving Repr, DecidableEq

/-- Full result of `evaluatePricingRules`. -/
structure EvalResult where
  pricing : PricingOut
  freebies : List Freebie
deriving Repr, DecidableEq

/-- The evaluator's effective quantity: max of the explicit quantity, the
document quantity and the stock quantity, all clamped to be non-negative. -/
def effectiveQtyOf (item : Line) (qty docQty : Option ℚ) : ℚ :=
  let rawRuleQty := (qty <|> item.qty).getD 0
  let rawDocQty :=
    match docQty with
    | some d => d
    | none => item.qty.getD rawRuleQty
  let rawStockQty := (item.stock_qty <|> item.base_qty <|> item.base_quantity).getD 0
  max (max 0 rawRuleQty) (max (max 0 rawDocQty) (max 0 rawStockQty))

/-- The evaluator's starting baseline rate: the `baseRate` argument when
finite, else the item's `base_price_list_rate || price_list_rate || rate || 0`. -/
def startRateOf (item : Line) (baseRate : Option ℚ) : ℚ :=
  match baseRate with
  | some b => b
  | none => jsChainQ [item.base_price_list_rate, item.price_list_rate, item.rate] 0

/-- The date/party/price-list filters shared by both rule families. -/
def validCandidatesOf (item : Line) (ctx : Ctx) (indexes : Indexes) : List Rule :=
  ((collectCandidates item indexes).filter
      (fun rule => inDateRange ctx.date rule.valid_from rule.valid_upto)).filter
    (fun rule =>
      matchParty rule ctx.customer ctx.customer_group ctx.territory &&
        matchPriceListAndCurrency rule ctx.price_list ctx.currency)

/-- The sorted quantity-discount candidates of `evaluatePricingRules`:
non-free valid candidates meeting `min_qty`, in comparator order. -/
def pricingRulesOf (item : Line) (ctx : Ctx) (indexes : Indexes) (effectiveQty : ℚ) :
    List Rule :=
  sortRules (((validCandidatesOf item ctx indexes).filter
      (fun rule => ¬ isFreeRule rule)).filter
    (fun rule => rule.min_qty.getD 0 ≤ effectiveQty))

/-- The sorted free-item candidates of `evaluatePricingRules`. -/
def freeRulesOf (item : Line) (ctx : Ctx) (indexes : Indexes) (effectiveQty : ℚ) : List Rule :=
  sortRules (((validCandidatesOf item ctx indexes).filter (fun rule => isFreeRule rule)).filter
    (fun rule => jsChainQ [rule.min_qty, rule.recurse_for] 1 ≤ effectiveQty))

/-- The `pricing` output of `evaluatePricingRules` given the sorted rule list. -/
def pricingOutcome (startRate effectiveQty : ℚ) (pricingRules : List Rule) : PricingOut :=
  if pricingRules.isEmpty then
    PricingOut.mk (roundQ startRate) 0 []
  else
    let out := runChain startRate effectiveQty startRate pricingRules
    PricingOut.mk (roundQ out.1) (roundQ (startRate - out.1)) out.2

/-- `evaluatePricingRules` of pricingEngine.js: the unified pure entry point
returning the effective rate, discount per unit, audit trail and free-item
descriptors. -/
def evaluatePricingRules (item : Line) (qty docQty baseRate : Option ℚ) (ctx : Ctx)
    (indexes : Indexes) : EvalResult :=
  let effectiveQty := effectiveQtyOf item qty docQty
  let startRate := startRateOf item baseRate
  let pricing := pricingOutcome startRate effectiveQty (pricingRulesOf item ctx indexes effectiveQty)
  let freebies := runFreeRules item effectiveQty (freeRulesOf item ctx indexes effectiveQty)
  ⟨pricing, freebies⟩

/-! ## The cart-line applier (invoice-item methods module) -/

/-- The pricing, discount and amount fields written back by the discounts
composable when a clamped line is repriced. -/
structure PriceFields where
  rate : Option ℚ := none
  base_rate : Option ℚ := none
  price_list_rate : Option ℚ := none
  base_price_list_rate : Option ℚ := none
  discount_amount : Option ℚ := none
  base_discount_amount : Option ℚ := none
  discount_percentage : Option ℚ := none
  amount : Option ℚ := none
  base_amount : Option ℚ := none
deriving Repr, DecidableEq

/-- The host component context consumed by the invoice-item methods: currency
conversion state, the `flt` float formatter, the `__` translator, the items
store, the stock-blocking settings read by `calc_stock_qty` (the JS
truthiness/`parseBooleanSetting` coercions of `pos_profile`,
`blockSaleBeyondAvailableQty` and `stock_settings` are taken as booleans;
`parseBooleanSetting` of utils/stock.js is not under the sources), and the
composables that are not part of the sources.

`get_new_item` (useItemAddition.js), `calcStockQty` (useStockUtils.js) and
`calcItemPrice` (useDiscounts.js) are not under the sources.  Modelled from
the spec: `get_new_item` synthesizes a new cart line cloned from catalog
metadata (a fresh JS object — the model assigns the fresh `objId` at the
call site); `calcStockQty` recomputes the mutated line's `stock_qty` from
the UI quantity and the UOM conversion factor, mutating the line in place;
`calcItemPrice` recalculates the line's base/currency-mirrored rate,
price-list rate, discount amount/percentage and amount/base-amount fields
(its pricing-pass scheduling side effect is outside a single synchronous
pass). -/
structure Env where
  exchange_rate : Option ℚ := none
  currency_precision : Option ℚ := none
  float_precision : Option ℚ := none
  hasFlt : Bool := false
  flt : ℚ → Option ℚ → ℚ := fun v _ => v
  tr : String → String := id
  getItemByCode : Option String → Option Line := fun _ => none
  get_new_item : Line → Line := id
  calcStockQty : ℚ → ℚ → ℚ := fun q _ => q
  calcItemPrice : Line → PriceFields := fun l =>
    { rate := l.rate, base_rate := l.base_rate, price_list_rate := l.price_list_rate,
      base_price_list_rate := l.base_price_list_rate, discount_amount := l.discount_amount,
      base_discount_amount := l.base_discount_amount,
      discount_percentage := l.discount_percentage, amount := l.amount,
      base_amount := l.base_amount }
  posa_block_sale_beyond_available_qty : Bool := false
  blockSaleBeyondAvailableQty : Bool := false
  stock_settings_allow_negative_stock : Bool := false

/-- `this.flt ? this.flt(v, this.currency_precision) : v`. -/
def fltC (env : Env) (v : ℚ) : ℚ := if env.hasFlt then env.flt v env.currency_precision else v

/-- `this.flt ? this.flt(v, this.float_precision) : v`. -/
def fltF (env : Env) (v : ℚ) : ℚ := if env.hasFlt then env.flt v env.float_precision else v

/-- `_fromBaseCurrency` of the invoice-item methods. -/
def fromBaseCurrency (env : Env) (value : ℚ) : ℚ := value * jsOrQ env.exchange_rate 1

/-- `_toBaseCurrency` of the invoice-item methods (its exchange rate is never
`0` thanks to the `|| 1` fallbacks). -/
def toBaseCurrency (env : Env) (value : ℚ) : ℚ := value / jsOrQ env.exchange_rate 1

/-- `_resolveBaseRate`: first finite candidate among
`base_price_list_rate, price_list_rate, base_rate, rate`, else `0`. -/
def resolveBaseRate (item : Line) : ℚ :=
  match [item.base_price_list_rate, item.price_list_rate, item.base_rate, item.rate].filterMap id with
  | v :: _ => v
  | [] => 0

/-- `_resolvePricingQty`: explicit stock/base quantity fields first, else
`qty ×` the first conversion factor that is neither `0` nor `1`, else `qty`. -/
def resolvePricingQty (item : Line) : ℚ :=
  match [item.stock_qty, item.base_qty, item.base_quantity, item.transfer_qty].filterMap id with
  | v :: _ => v
  | [] =>
    match item.qty with
    | none => 0
    | some q =>
      match ([item.conversion_factor, item.uom_conversion_factor].filterMap id).find?
          (fun v => v ≠ 0 ∧ v ≠ 1) with
      | some f => q * f
      | none => q

/-- `JSON.stringify` of a list of rule names (escaping is irrelevant here). -/
def jsonStringifyNames (names : List String) : String :=
  "[" ++ String.intercalate "," (names.map (fun s => "\x22" ++ s ++ "\x22")) ++ "]"

/-- `_updatePricingBadge`: clears or rewrites the badge metadata from the
applied-rule trail; it never touches pricing fields. -/
def updatePricingBadge (tr : String → String) (item : Line) (applied : List Detail) : Line :=
  if applied.isEmpty then
    { item with pricing_rule_badge := none, pricing_rule_details := [], pricing_rules := none }
  else
    let names := applied.filterMap (fun d => if truthyS d.name then d.name else none)
    let first := names.headD "undefined"
    let extraCount := if names.length > 1 then names.length - 1 else 0
    let label :=
      if extraCount ≠ 0 then tr "Pricing Rule" ++ ": " ++ first ++ " (+" ++ toString extraCount ++ ")"
      else tr "Pricing Rule" ++ ": " ++ first
    let tooltip :=
      String.intercalate "\n"
        (applied.map (fun d =>
          showOpt d.name ++
            (match d.type with
             | some t => if t = "" then "" else " (" ++ t ++ ")"
             | none => "")))
    { item with
      pricing_rule_badge := some ⟨label, tooltip, some names⟩
      pricing_rule_details := applied
      pricing_rules := some (jsonStringifyNames names) }

/-- The cart-wide freebie map, keyed `rule::item_code::parentRowId` (a JS
`Map`, modelled as an insertion-ordered association list). -/
abbrev FreebiesMap := List (String × Freebie)

/-- JS `Map.prototype.get`. -/
def mapGet (m : FreebiesMap) (k : String) : Option Freebie :=
  (m.find? (fun p => p.1 = k)).map Prod.snd

/-- JS `Map.prototype.set`: overwrite in place or append. -/
def mapSet (m : FreebiesMap) (k : String) (v : Freebie) : FreebiesMap :=
  if m.any (fun p => p.1 = k) then m.map (fun p => if p.1 = k then (k, v) else p) else m ++ [(k, v)]

/-- The merge `{...existing, ...entry, qty, stock_qty, parentRowId}` performed
when a line's freebies are folded into the cart-wide map: quantities
accumulate; the conditionally-spread pricing keys of `entry` override only
when present. -/
def mergeFreebieEntry (existing : Option Freebie) (entry : Freebie) (parentRowId : Option String) :
    Freebie :=
  let parsedEntryQty := entry.qty
  let parsedExistingQty := match existing with | some e => e.qty | none => 0
  let parsedEntryStock := if entry.stock_qty ≠ 0 then entry.stock_qty else entry.qty
  let parsedExistingStock :=
    match existing with
    | some e => if e.stock_qty ≠ 0 then e.stock_qty else e.qty
    | none => 0
  { entry with
    qty := parsedEntryQty + parsedExistingQty
    stock_qty := parsedEntryStock + parsedExistingStock
    parentRowId := parentRowId
    base_rate := entry.base_rate <|> existing.bind Freebie.base_rate
    rate := entry.rate <|> existing.bind Freebie.rate
    base_price_list_rate := entry.base_price_list_rate <|> existing.bind Freebie.base_price_list_rate
    price_list_rate := entry.price_list_rate <|> existing.bind Freebie.price_list_rate
    base_discount_amount := entry.base_discount_amount <|> existing.bind Freebie.base_discount_amount
    discount_amount := entry.discount_amount <|> existing.bind Freebie.discount_amount
    discount_percentage := entry.discount_percentage <|> existing.bind Freebie.discount_percentage }

/-- `_applyPricingToLine`: evaluates the rules for one paid line, refreshes the
badge, applies the clamped rate mutation when no lock/override/promotion
forbids it, and folds the line's free-item descriptors into the cart-wide
freebie map.  (`rawPricingQty` is always finite over `ℚ`, so the
`Number.isFinite` fallback of the source is the identity.) -/
def applyPricingToLine (env : Env) (ctx : Ctx) (indexes : Indexes) (item : Line)
    (freebiesMap : FreebiesMap) : Line × FreebiesMap :=
  let manualFromUom := item._manual_rate_set_from_uom
  let manualOverride := item._manual_rate_set && !manualFromUom
  let allowRateUpdate := !item.locked_price && !item.posa_offer_applied && !manualOverride
  let signedDocQty := item.qty.getD 0
  let docQty := |signedDocQty|
  let pricingQty := resolvePricingQty item
  let qty := |pricingQty|
  if docQty = 0 ∧ qty = 0 then (item, freebiesMap)
  else
    let baseRate := resolveBaseRate item
    let result := evaluatePricingRules item (some qty) (some docQty) (some baseRate) ctx indexes
    let item1 := updatePricingBadge env.tr item result.pricing.applied
    let item2 :=
      if allowRateUpdate then
        let proposedRate := result.pricing.rate
        let proposedDiscount := result.pricing.discountPerUnit
        let baseDiscountPerUnit0 := |proposedDiscount|
        let maxDiscount := max baseRate 0
        let baseDiscountPerUnit :=
          if baseDiscountPerUnit0 > maxDiscount then maxDiscount else baseDiscountPerUnit0
        let discountedRate := max (baseRate - baseDiscountPerUnit) 0
        let effectiveBaseRate0 := min proposedRate baseRate
        let effectiveBaseRate :=
          if discountedRate < effectiveBaseRate0 then discountedRate else effectiveBaseRate0
        let baseAmount := effectiveBaseRate * signedDocQty
        let convertedRate := fromBaseCurrency env effectiveBaseRate
        let convertedDiscount := fromBaseCurrency env baseDiscountPerUnit
        let normalizedBaseDiscount := |baseDiscountPerUnit|
        let normalizedDiscount := |convertedDiscount|
        let rawDiscountPercentage :=
          if baseRate ≠ 0 then normalizedBaseDiscount / baseRate * 100 else 0
        let newRate := fltC env convertedRate
        { item1 with
          base_price_list_rate := some baseRate
          base_rate := some effectiveBaseRate
          base_discount_amount := some normalizedBaseDiscount
          price_list_rate := some (fltC env (fromBaseCurrency env baseRate))
          rate := some newRate
          discount_amount := some (fltC env normalizedDiscount)
          discount_percentage := some (if baseRate ≠ 0 then fltF env |rawDiscountPercentage| else 0)
          amount := some (fltC env (newRate * item.qty.getD 0))
          base_amount := some (fltC env baseAmount) }
      else item1
    let fm :=
      result.freebies.foldl
        (fun fm entry =>
          let key :=
            showOpt entry.rule ++ "::" ++ showOpt entry.item_code ++ "::" ++
              showOpt item.posa_row_id
          mapSet fm key (mergeFreebieEntry (mapGet fm key) entry item.posa_row_id))
        freebiesMap
    (item2, fm)

/-! ## The free-line synchronizer (`_syncAutoFreeLines`) -/

/-- A packed-item (bundle) association. -/
structure PackedItem where
  bundle_id : Option String := none
deriving Repr, DecidableEq

/-- The cart state mutated by `_syncAutoFreeLines`. -/
structure CartState where
  items : List Line := []
  packed_items : List PackedItem := []
deriving Repr, DecidableEq

/-- JS `String.prototype.trim`, over the character list. -/
def jsTrim (s : String) : String :=
  ⟨((s.data.dropWhile Char.isWhitespace).reverse.dropWhile Char.isWhitespace).reverse⟩

/-- The first string literal of a JSON text: stands in for
`JSON.parse` followed by `preferString` in `resolveRuleName`.  For the
array payloads the engine itself writes (`JSON.stringify(names)`) this yields
exactly the first rule name; JSON object payloads are approximated. -/
def firstJsonString (s : String) : String :=
  let rec scan : List Char → Option (List Char)
    | [] => none
    | c :: rest => if c = '\x22' then some rest else scan rest
  let rec take : List Char → List Char
    | [] => []
    | c :: rest => if c = '\x22' then [] else c :: take rest
  match scan s.data with
  | some rest => ⟨take rest⟩
  | none => ""

/-- `resolveRuleName` of `_syncAutoFreeLines`: prefer `source_rule`, then
`pricing_rule`, then a (possibly JSON-encoded) `pricing_rules` payload. -/
def resolveRuleName (line : Line) : String :=
  if truthyS line.source_rule then line.source_rule.getD ""
  else if truthyS line.pricing_rule then line.pricing_rule.getD ""
  else
    match line.pricing_rules with
    | some raw =>
      let trimmed := jsTrim raw
      if trimmed = "" then ""
      else if (trimmed.data.head? = some '[' ∧ trimmed.data.getLast? = some ']') ∨
          (trimmed.data.head? = some '\x7b' ∧ trimmed.data.getLast? = some '\x7d') then
        firstJsonString trimmed
      else trimmed
    | none => ""

/-- A legacy (untagged) free line collected before the sync loop; `itemCode`
is recorded at snapshot time (the loop never mutates `item_code`). -/
structure LegacyEntry where
  objId : ℕ
  itemCode : Option String
  rule : String
  used : Bool
deriving Repr, DecidableEq

/-- Mutable state of the `_syncAutoFreeLines` entry loop. -/
structure SyncPassState where
  items : List Line
  existing : List (String × ℕ)
  legacy : List LegacyEntry
deriving Repr, DecidableEq

/-- Association-list lookup for the `existing` key → line index. -/
def assocGetN (m : List (String × ℕ)) (k : String) : Option ℕ :=
  (m.find? (fun p => p.1 = k)).map Prod.snd

/-- Association-list overwrite-or-append (JS `Map.prototype.set`). -/
def assocSetN (m : List (String × ℕ)) (k : String) (v : ℕ) : List (String × ℕ) :=
  if m.any (fun p => p.1 = k) then m.map (fun p => if p.1 = k then (k, v) else p) else m ++ [(k, v)]

/-- In-place mutation of the line object identified by `oid`. -/
def updateById (items : List Line) (oid : ℕ) (f : Line → Line) : List Line :=
  items.map (fun l => if l.objId = oid then f l else l)

/-- A fresh object identity for a newly constructed line. -/
def freshObjId (items : List Line) : ℕ := (items.map Line.objId).foldr max 0 + 1

/-- The pre-loop indexing pass of `_syncAutoFreeLines`: index live free lines
by `auto_free_source` (later occurrences win, as with `Map.set`) and collect
untagged legacy free lines with a resolvable rule name. -/
def syncIndexStep (acc : List (String × ℕ) × List LegacyEntry) (l : Line) :
    List (String × ℕ) × List LegacyEntry :=
  if truthyS l.auto_free_source then
    (assocSetN acc.1 (l.auto_free_source.getD "") l.objId, acc.2)
  else if l.is_free_item then
    let ruleName := resolveRuleName l
    if ruleName ≠ "" then (acc.1, acc.2 ++ [⟨l.objId, l.item_code, ruleName, false⟩])
    else acc
  else acc

def buildSyncIndex (items : List Line) : List (String × ℕ) × List LegacyEntry :=
  items.foldl syncIndexStep ([], [])

/-- The stock-utils composable call `calcStockQty(item, value, this)` opening
the `calc_stock_qty` method.  The composable is not under the sources;
modelled from the spec as a recalculation of the line's `stock_qty` from the
quantity passed in and the UOM conversion factor. -/
def writeStockQty (env : Env) (l : Line) : Line :=
  { l with stock_qty := some (env.calcStockQty (l.qty.getD 0) (l.conversion_factor.getD 1)) }

/-- `Boolean(this.pos_profile?.posa_block_sale_beyond_available_qty ||
this.blockSaleBeyondAvailableQty)`. -/
def blockSaleB (env : Env) : Bool :=
  env.posa_block_sale_beyond_available_qty || env.blockSaleBeyondAvailableQty

/-- `!blockSale && (parseBooleanSetting(this.stock_settings?.allow_negative_stock)
|| parseBooleanSetting(item?.allow_negative_stock))`, the settings taken as
already-parsed booleans. -/
def allowNegativeStockB (env : Env) (l : Line) : Bool :=
  !blockSaleB env && (env.stock_settings_allow_negative_stock || l.allow_negative_stock)

/-- `update_qty_limits` of the invoice methods: refresh `max_qty` and the
increment-disable flag from the cached base stock quantity (the JS
`item.qty >= item.max_qty` is false when `qty` is undefined). -/
def updateQtyLimits (env : Env) (item : Line) : Line :=
  if item.is_stock_item == some 0 then
    { item with max_qty := none, disable_increment := false }
  else
    match item._base_actual_qty with
    | some baseActual =>
      let maxQty := baseActual / jsOrQ item.conversion_factor 1
      let item := { item with max_qty := some maxQty }
      let qtyGe := match item.qty with | some q => decide (q ≥ maxQty) | none => false
      if allowNegativeStockB env item then { item with disable_increment := false }
      else if blockSaleB env then { item with disable_increment := qtyGe }
      else { item with disable_increment := !env.stock_settings_allow_negative_stock && qtyGe }
    | none => item

/-- The quantity clamp condition of `calc_stock_qty`
(`blockSale && !allowNegativeStock && item.max_qty !== undefined &&
flt(item.qty) > item.max_qty`; the warning toast is UI-only). -/
def clampCond (env : Env) (l : Line) : Bool :=
  blockSaleB env && !allowNegativeStockB env l && l.max_qty.isSome &&
    decide (l.qty.getD 0 > l.max_qty.getD 0)

/-- `calc_item_price` through the discounts composable (not under the
sources): write back the recalculated pricing, discount and amount fields,
modelled from the spec (see `Env`). -/
def applyCalcItemPrice (env : Env) (l : Line) : Line :=
  let p := env.calcItemPrice l
  { l with
    rate := p.rate
    base_rate := p.base_rate
    price_list_rate := p.price_list_rate
    base_price_list_rate := p.base_price_list_rate
    discount_amount := p.discount_amount
    base_discount_amount := p.base_discount_amount
    discount_percentage := p.discount_percentage
    amount := p.amount
    base_amount := p.base_amount }

/-- `remove_item` through the absent `removeItem` composable: modelled from
the spec as removal of the line from the cart's items (the pricing-pass
scheduling and `$forceUpdate` side effects are outside a synchronous pass). -/
def removeItemById (items : List Line) (oid : ℕ) : List Line :=
  items.filter (fun l => !(l.objId == oid))

/-- `calc_stock_qty(item, value)` of the invoice methods (the method itself
is part of the sources): run the stock composable, refresh quantity limits,
clamp the quantity to the available maximum when selling beyond available
stock is blocked, remove the line when its (possibly clamped) quantity is
zero, and reprice a clamped surviving line.  The mutated line object is
identified by `oid`; the global `flt` is the identity over `ℚ`. -/
def calcStockQtyMethod (env : Env) (items : List Line) (oid : ℕ) : List Line :=
  let items1 := updateById items oid (fun l => updateQtyLimits env (writeStockQty env l))
  match items1.find? (fun l => l.objId == oid) with
  | none => items1
  | some l =>
    let clamped := clampCond env l
    let items2 :=
      if clamped then updateById items1 oid (fun x => { x with qty := x.max_qty }) else items1
    let finalQty := if clamped then l.max_qty.getD 0 else l.qty.getD 0
    if finalQty = 0 then removeItemById items2 oid
    else if clamped then updateById items2 oid (applyCalcItemPrice env)
    else items2

/-- `applyFreeLinePricing` of `_syncAutoFreeLines`: resolve the descriptor's
base pricing fields with fallbacks, convert to display currency and write all
pricing fields of the free line.  Over `ℚ` every resolved value is finite, so
the `parseFinite`/`convertFromBase` null fallbacks of the source collapse. -/
def applyFreeLinePricing (env : Env) (line : Line) (data : Freebie) (qty : ℚ) : Line :=
  let currencyPrecision := env.currency_precision.getD 2
  let floatPrecision := env.float_precision.getD 2
  let formatCurrency := fun (v : ℚ) => if env.hasFlt then env.flt v (some currencyPrecision) else v
  let formatPercentage := fun (v : ℚ) => if env.hasFlt then env.flt v (some floatPrecision) else v
  let convertFromBase := fun (v : ℚ) => formatCurrency (fromBaseCurrency env v)
  let baseRate := data.base_rate <|> data.rate
  let basePriceListRate := data.base_price_list_rate <|> data.price_list_rate <|> baseRate
  let baseDiscount0 := data.base_discount_amount <|> data.discount_amount
  let baseDiscount :=
    match baseDiscount0, basePriceListRate, baseRate with
    | none, some p, some b => some (max (p - b) 0)
    | d, _, _ => d
  let resolvedBaseRate := baseRate.getD 0
  let resolvedBasePriceListRate := basePriceListRate.getD resolvedBaseRate
  let resolvedBaseDiscount :=
    match baseDiscount with
    | some d => max d 0
    | none => max (resolvedBasePriceListRate - resolvedBaseRate) 0
  let resolvedDiscountPercentage :=
    match data.discount_percentage with
    | some p => max p 0
    | none =>
      if resolvedBasePriceListRate ≠ 0 then
        max (resolvedBaseDiscount / resolvedBasePriceListRate * 100) 0
      else 0
  let baseAmount := resolvedBaseRate * qty
  { line with
    base_rate := some resolvedBaseRate
    base_price_list_rate := some resolvedBasePriceListRate
    base_discount_amount := some resolvedBaseDiscount
    base_amount := some baseAmount
    rate := some (convertFromBase resolvedBaseRate)
    price_list_rate := some (convertFromBase resolvedBasePriceListRate)
    discount_amount := some (max (convertFromBase resolvedBaseDiscount) 0)
    amount := some (convertFromBase baseAmount)
    discount_percentage := some (formatPercentage resolvedDiscountPercentage) }

/-- Display of a rational in badge text (JS number formatting is not
modelled; badge text carries no decision logic). -/
def showQ (v : ℚ) : String := toString v.num ++ "/" ++ toString v.den

/-- `buildFreeBadgeMeta` of `_syncAutoFreeLines`.  Descriptor fields absent on
server-built map entries are `0`-defaulted in `Freebie`, matching the
source's `?? 0` fallbacks. -/
def buildFreeBadgeMeta (tr : String → String) (data : Freebie) : Badge :=
  let ruleLabel := jsOrS data.rule ""
  let label := tr "Free" ++ " (" ++ tr "Rule" ++ ": " ++ ruleLabel ++ ")"
  let freeQty := data.qty
  let thresholdQty := data.threshold_qty
  let perThreshold := data.free_qty_per_threshold
  let multiplier := data.multiplier
  let parts :=
    (if data.apply_per_threshold ∧ thresholdQty > 0 then
      [tr "Every" ++ " " ++ showQ thresholdQty ++ " → " ++ showQ perThreshold ++ " " ++ tr "Free"] ++
        (if multiplier ≥ 0 then [tr "Qualified" ++ ": " ++ showQ multiplier] else [])
    else if thresholdQty > 0 then [tr "Minimum Qty" ++ ": " ++ showQ thresholdQty]
    else []) ++
    [tr "Free Qty" ++ ": " ++ showQ freeQty]
  ⟨label, String.intercalate "; " parts, none⟩

/-- The trailing object writes of `applyFreeLineState` (flags, pricing,
source rule and badge).  The source applies them to the line object whether
or not `calc_stock_qty` removed it from the cart; mutating a detached object
does not affect the items list, which the state-level wrapper models by a
no-op update. -/
def finishFreeLine (env : Env) (data : Freebie) (qty : ℚ) (l : Line) : Line :=
  let l := { l with is_free_item := true, locked_price := true }
  let l := applyFreeLinePricing env l data qty
  { l with source_rule := data.rule, pricing_rule_badge := some (buildFreeBadgeMeta env.tr data) }

/-- `applyFreeLineState` of `_syncAutoFreeLines`, at the cart level: refresh
qty/uom/conversion of the live free line identified by `oid`, run the
`calc_stock_qty` method when the quantity/uom/conversion changed — which may
clamp the quantity or remove the line from the cart — then write flags,
pricing and badge on the object.  (`data.stock_qty` is always finite over
`ℚ`, so the `hasStockQty` guard of the source always holds; the
`this.calc_stock_qty` guard is always true, the method being defined on the
same component object.) -/
def applyFreeLineStateM (env : Env) (items : List Line) (oid : ℕ) (data : Freebie) :
    List Line :=
  match items.find? (fun l => l.objId == oid) with
  | none => items
  | some line0 =>
    let qty := fltF env data.qty
    let hasUom := truthyS data.uom ∧ ¬(line0.uom == data.uom)
    let items :=
      if hasUom then updateById items oid (fun l => { l with uom := data.uom }) else items
    let hasConversion := data.conversion_factor.isSome
    let items :=
      match data.conversion_factor with
      | some parsed =>
        if parsed > 0 then
          updateById items oid (fun l => { l with conversion_factor := some parsed })
        else items
      | none => items
    let requiresQtyUpdate := (line0.qty.getD 0 ≠ qty) ∨ hasUom ∨ hasConversion
    let parsedStockQty := data.stock_qty
    let items :=
      if requiresQtyUpdate then
        calcStockQtyMethod env
          (updateById items oid (fun l => { l with qty := some qty, stock_qty := some parsedStockQty }))
          oid
      else updateById items oid (fun l => { l with stock_qty := some parsedStockQty })
    updateById items oid (finishFreeLine env data qty)

/-- Mark the first unused legacy entry matching the descriptor as used and
return its line's identity, if any (`legacyFreeLines.findIndex` + adoption). -/
def adoptLegacy (itemCode : Option String) (normalizedRule : String) :
    List LegacyEntry → Option (ℕ × List LegacyEntry)
  | [] => none
  | e :: rest =>
    if ¬ e.used ∧ (e.itemCode == itemCode) ∧ (normalizedRule = "" ∨ e.rule = normalizedRule) then
      some (e.objId, { e with used := true } :: rest)
    else
      match adoptLegacy itemCode normalizedRule rest with
      | some (oid, rest') => some (oid, e :: rest')
      | none => none

/-- One iteration of the `for (const [key, data] of freebiesMap.entries())`
loop of `_syncAutoFreeLines`: update a live tagged line in place, else adopt a
legacy line, else synthesize a new free line next to its parent. -/
def syncEntryStep (env : Env) (st : SyncPassState) (key : String) (data : Freebie) :
    SyncPassState :=
  match assocGetN st.existing key with
  | some oid => { st with items := applyFreeLineStateM env st.items oid data }
  | none =>
    let normalizedRule := jsOrS data.rule ""
    match adoptLegacy data.item_code normalizedRule st.legacy with
    | some (oid, legacy') =>
      { items :=
          applyFreeLineStateM env
            (updateById st.items oid (fun l =>
              { l with auto_free_source := some key, parent_row_id := data.parentRowId }))
            oid data
        existing := assocSetN st.existing key oid
        legacy := legacy' }
    | none =>
      let catalogItem := env.getItemByCode data.item_code
      let parentLine :=
        if truthyS data.parentRowId then
          st.items.find? (fun l => l.posa_row_id == data.parentRowId)
        else none
      let resolvedUom :=
        jsOrSO data.uom (jsOrSO (catalogItem.bind Line.uom)
          (jsOrSO (parentLine.bind Line.uom)
            (jsOrSO (catalogItem.bind Line.stock_uom) (parentLine.bind Line.stock_uom))))
      let fallbackConv : Option ℚ :=
        if truthyS resolvedUom ∧ parentLine.isSome ∧ parentLine.bind Line.uom == resolvedUom then
          parentLine.bind Line.conversion_factor
        else if truthyS resolvedUom ∧ catalogItem.isSome ∧ catalogItem.bind Line.uom == resolvedUom then
          catalogItem.bind Line.conversion_factor
        else if truthyS resolvedUom ∧
            resolvedUom == jsOrSO (catalogItem.bind Line.stock_uom) (parentLine.bind Line.stock_uom) then
          some 1
        else none
      let resolvedConversion : Option ℚ :=
        match data.conversion_factor with
        | some p => if p > 0 then some p else fallbackConv
        | none => fallbackConv
      let quantity := fltF env data.qty
      let template : Line :=
        { catalogItem.getD {} with
          item_code := data.item_code
          item_name := jsOrSO (catalogItem.bind Line.item_name) data.item_code
          qty := some quantity
          rate := some 0
          price_list_rate := some 0
          uom := jsOrSO resolvedUom (catalogItem.bind Line.uom) }
      let freeLine := { env.get_new_item template with objId := freshObjId st.items }
      let freeLine := { freeLine with qty := some quantity }
      let freeLine := if truthyS resolvedUom then { freeLine with uom := resolvedUom } else freeLine
      let freeLine :=
        match resolvedConversion with
        | some c => { freeLine with conversion_factor := some c }
        | none => freeLine
      let freeLine := { freeLine with stock_qty := some data.stock_qty }
      let freeLine :=
        { freeLine with
          is_free_item := true
          locked_price := true
          _manual_rate_set := true
          source_rule := data.rule
          auto_free_source := some key
          parent_row_id := data.parentRowId
          pricing_rule_badge := some (buildFreeBadgeMeta env.tr data) }
      let freeLine := applyFreeLinePricing env freeLine data quantity
      let parentIndex := st.items.findIdx? (fun l => l.posa_row_id == data.parentRowId)
      let insertAt := match parentIndex with | some i => i + 1 | none => st.items.length
      { st with
        items := calcStockQtyMethod env (st.items.insertIdx insertAt freeLine) freeLine.objId }

/-- Is this line removed by the post-loop sweep (truthy tag not among the
expected keys)? -/
def removableTag (expectedKeys : List String) (l : Line) : Bool :=
  truthyS l.auto_free_source && !(expectedKeys.contains (l.auto_free_source.getD ""))

/-- The indexing pass plus the entry loop of `_syncAutoFreeLines`. -/
def syncLoop (env : Env) (items : List Line) (freebiesMap : FreebiesMap) : SyncPassState :=
  let built := buildSyncIndex items
  freebiesMap.foldl (fun s kv => syncEntryStep env s kv.1 kv.2)
    (SyncPassState.mk items built.1 built.2)

/-- One step of the packed-items sweep over the removed lines: drop the
removed line's bundle (`packed_items.filter`), if it carries one. -/
def packedStep (acc : List PackedItem) (l : Line) : List PackedItem :=
  if truthyS l.bundle_id then acc.filter (fun p => !(p.bundle_id == l.bundle_id)) else acc

/-- `_syncAutoFreeLines`: reconcile the cart's derived free lines against the
freebie map — update/adopt/create per entry, then remove every line whose
`auto_free_source` is not among the map's keys, dropping the packed-item
bundles of removed lines. -/
def syncAutoFreeLines (env : Env) (st : CartState) (freebiesMap : FreebiesMap) : CartState :=
  let expectedKeys := freebiesMap.map Prod.fst
  let passEnd := syncLoop env st.items freebiesMap
  let removed := passEnd.items.filter (fun l => removableTag expectedKeys l)
  let kept := passEnd.items.filter (fun l => !(removableTag expectedKeys l))
  let packed := removed.foldl packedStep st.packed_items
  ⟨kept, packed⟩

/-! ## Server reconciliation: the paid-line update application

The `updates.forEach` block of `_applyServerPricingRules` (the part that
merges the authoritative response into paid lines under the mutation guards).
The two same-item freebie collections are built by the preceding
`serverFree.forEach` loop over the response's `free_lines`; they are taken
here as inputs: `sameItemFreeParents` maps a parent row id to the item codes
of its `same_item` freebies, `sameItemFreeCodes` collects the item codes of
`same_item` freebies without parent linkage. -/

/-- One raw entry of `update.pricing_rule_details`: a plain string or an
object with `name`/`pricing_rule`/`rule`/`type`/`discount_type` keys. -/
inductive RawDetail where
  | str (v : String)
  | obj (name pricing_rule rule type discount_type : Option String)
deriving Repr, DecidableEq

/-- The per-entry normalisation inside the `detailed` computation. -/
def normalizeRawDetail : RawDetail → Option Detail
  | .str v => if v = "" then none else some { name := some v }
  | .obj name pricing_rule rule type discount_type =>
    let n := jsOrSO name (jsOrSO pricing_rule rule)
    if truthyS n then
      let t := jsOrSO type discount_type
      if truthyS t then some { name := n, type := t } else some { name := n }
    else none

/-- One paid-line update of the reconciliation response. -/
structure ServerUpdate where
  row_id : Option String := none
  rate : Option ℚ := none
  price_list_rate : Option ℚ := none
  discount_amount : Option ℚ := none
  discount_percentage : Option ℚ := none
  pricing_rules : Option (List (Option String)) := none
  pricing_rule_details : Option (List RawDetail) := none
deriving Repr, DecidableEq

/-- The same-item freebie bookkeeping handed to the update loop. -/
structure SameItemInfo where
  parents : List (String × List String) := []
  codes : List String := []
deriving Repr, DecidableEq

/-- Does the guard see a `same_item` freebie referencing this paid line
(by parent row id, else by bare item code)? -/
def hasSameItemFree (info : SameItemInfo) (update : ServerUpdate) (item : Line) : Bool :=
  let parentKey := jsOrSO (jsOrSO item.posa_row_id item.name) update.row_id
  let fromParents :=
    match parentKey with
    | some k =>
      match (info.parents.find? (fun p => p.1 = k)).map Prod.snd with
      | some codes =>
        match item.item_code with
        | some c => codes.contains c
        | none => false
      | none => false
    | none => false
  fromParents ||
    (match item.item_code with
     | some c => info.codes.contains c
     | none => false)

/-- The original base values the guard compares against (stored base values,
else the display values converted to base currency). -/
def originalBaseOf (env : Env) (stored display : Option ℚ) : ℚ :=
  match stored with
  | some v => v
  | none => toBaseCurrency env (display.getD 0)

/-- The server-resolved `(rate, price-list rate, discount, percentage)` of an
update: each server value with the line's stored value as fallback. -/
def serverResolved (update : ServerUpdate) (item : Line) : ℚ × ℚ × ℚ × ℚ :=
  ((update.rate <|> item.base_rate).getD 0,
    (update.price_list_rate <|> item.base_price_list_rate).getD 0,
    (update.discount_amount <|> item.base_discount_amount).getD 0,
    (update.discount_percentage <|> item.discount_percentage).getD 0)

/-- The value condition of the same-item-freebie zeroing guard:
`serverZeroedValues || serverFullDiscount || fallbackFullDiscount` as computed
in `_applyServerPricingRules` (over `ℚ` every parsed value is finite). -/
def serverZeroedOrFullDiscount (env : Env) (update : ServerUpdate) (item : Line) : Bool :=
  let r := serverResolved update item
  let baseRate := r.1
  let basePriceListRate := r.2.1
  let baseDiscount := r.2.2.1
  let discountPercentage := r.2.2.2
  let originalBasePriceList := originalBaseOf env item.base_price_list_rate item.price_list_rate
  let originalBaseDiscount := originalBaseOf env item.base_discount_amount item.discount_amount
  let epsilon : ℚ := 1 / 1000000
  let zeroRateFromServer := basePriceListRate > 0 ∧ baseRate ≤ 0
  let zeroPriceListFromServer := basePriceListRate ≤ 0
  let serverRemovedPriceList := zeroPriceListFromServer ∧ originalBasePriceList > 0
  let serverRemovedDiscount := baseDiscount ≤ 0 ∧ originalBaseDiscount > 0
  let serverRemovedPercentage :=
    discountPercentage ≤ 0 ∧ originalBasePriceList > 0 ∧
      originalBaseDiscount ≥ originalBasePriceList - epsilon
  let serverFullDiscount :=
    discountPercentage ≥ 9999 / 100 ∨
      (basePriceListRate > 0 ∧ baseDiscount ≥ basePriceListRate - epsilon)
  let fallbackFullDiscount :=
    originalBasePriceList > 0 ∧ originalBaseDiscount ≥ originalBasePriceList - epsilon
  let serverZeroedValues :=
    zeroRateFromServer ∨ serverRemovedPriceList ∨ serverRemovedDiscount ∨ serverRemovedPercentage
  decide (serverZeroedValues ∨ serverFullDiscount ∨ fallbackFullDiscount)

/-- `allowServerRateUpdate`: mutation guards (manual override, locked price,
promotion) plus the same-item-freebie zeroing guard. -/
def allowServerRateUpdateFor (env : Env) (info : SameItemInfo) (update : ServerUpdate)
    (item : Line) : Bool :=
  let manualOverride := item._manual_rate_set && !item._manual_rate_set_from_uom
  if !manualOverride && !item.locked_price && !item.posa_offer_applied then
    let hasSame := hasSameItemFree info update item
    let originalBaseRate := originalBaseOf env item.base_rate item.rate
    !(hasSame && decide (originalBaseRate > 0) && serverZeroedOrFullDiscount env update item)
  else false

/-- The body of `updates.forEach` for one located paid line: resolve the
server values with local fallbacks, decide `allowServerRateUpdate` (mutation
guards plus the same-item-freebie zeroing guard), apply the update when
allowed, and refresh the badge. -/
def applyServerUpdateToItem (env : Env) (info : SameItemInfo) (update : ServerUpdate)
    (item : Line) : Line :=
  let precision : Option ℚ := some (jsOrQ env.currency_precision 2)
  let r := serverResolved update item
  let baseRate := r.1
  let basePriceListRate := r.2.1
  let baseDiscount := r.2.2.1
  let discountPercentage := r.2.2.2
  let allowServerRateUpdate := allowServerRateUpdateFor env info update item
  let item1 :=
    if allowServerRateUpdate then
      let convertedRate := fromBaseCurrency env baseRate
      let convertedPriceListRate := fromBaseCurrency env basePriceListRate
      let convertedDiscount := fromBaseCurrency env baseDiscount
      let fltP := fun (v : ℚ) => if env.hasFlt then env.flt v precision else v
      let newRate := fltP convertedRate
      { item with
        base_rate := some baseRate
        base_price_list_rate := some basePriceListRate
        base_discount_amount := some baseDiscount
        discount_percentage := some discountPercentage
        rate := some newRate
        price_list_rate := some (fltP convertedPriceListRate)
        discount_amount := some (fltP convertedDiscount)
        amount := some (fltP (newRate * item.qty.getD 0))
        base_amount := some (fltP (baseRate * item.qty.getD 0)) }
    else item
  let rulesProvided := update.pricing_rules.isSome
  let detailsProvided := update.pricing_rule_details.isSome
  let appliedRules :=
    if rulesProvided then
      (update.pricing_rules.getD []).filterMap (fun n => if truthyS n then n else none)
    else []
  let detailed :=
    if detailsProvided then
      (update.pricing_rule_details.getD []).filterMap normalizeRawDetail
    else if ¬ rulesProvided then
      item1.pricing_rule_details
    else
      appliedRules.map (fun n => ({ name := some n } : Detail))
  updatePricingBadge env.tr item1 detailed

/-- The `this.items.find(...)` matching a server update to a paid line. -/
def matchesUpdateTarget (targetId : Option String) (line : Line) : Bool :=
  !line.is_free_item &&
    (line.posa_row_id == targetId || line.name == targetId ||
      (line.item_code == targetId && !(truthyS line.auto_free_source)))

/-- The whole `updates.forEach` loop: each update mutates the first matching
paid line in place (no line is added or removed). -/
def applyServerUpdates (env : Env) (info : SameItemInfo) (updates : List ServerUpdate)
    (items : List Line) : List Line :=
  updates.foldl
    (fun items update =>
      match items.findIdx? (fun l => matchesUpdateTarget update.row_id l) with
      | some i =>
        match items.get? i with
        | some l => items.set i (applyServerUpdateToItem env info update l)
        | none => items
      | none => items)
    items

/-! ## Shared helpers for the claims -/

/-- The pricing fields of a line protected by the mutation guards:
`(rate, base_rate, price_list_rate, base_price_list_rate, discount_amount,
base_discount_amount, discount_percentage)`. -/
def pricingFieldsOf (l : Line) :
    Option ℚ × Option ℚ × Option ℚ × Option ℚ × Option ℚ × Option ℚ × Option ℚ :=
  (l.rate, l.base_rate, l.price_list_rate, l.base_price_list_rate, l.discount_amount,
    l.base_discount_amount, l.discount_percentage)

/-- Accumulator invariant of the `selectSlab` fold over the already-processed
prefix `p`. -/
def slabAccInv (qty : ℚ) (p : List Slab) : Option Slab → Prop
  | some c =>
    c ∈ p ∧ c.min_qty.getD 0 ≤ qty ∧
      ∀ s' ∈ p, s'.min_qty.getD 0 ≤ qty → s'.min_qty.getD 0 ≤ c.min_qty.getD 0
  | none => ∀ s' ∈ p, ¬ s'.min_qty.getD 0 ≤ qty

/-- The specification's rule precedence, as a strict lexicographic key order:
specificity descending, then priority descending, then benefit score
descending, then rule name ascending. -/
def ruleKeyLT (a b : Rule) : Prop :=
  b.specificity.getD 0 < a.specificity.getD 0 ∨
    (b.specificity.getD 0 = a.specificity.getD 0 ∧
      (b.priority.getD 0 < a.priority.getD 0 ∨
        (b.priority.getD 0 = a.priority.getD 0 ∧
          (ruleBenefitScore b < ruleBenefitScore a ∨
            (ruleBenefitScore b = ruleBenefitScore a ∧
              strLtB (jsOrS a.name "") (jsOrS b.name "") = true)))))

/-- A free line whose tag no longer matches any freebie key: fixture for the
stale-tag removal pass. -/
def staleLine : Line :=
  { objId := 5, item_code := some "FREE-ITEM", is_free_item := true,
    auto_free_source := some "GONE", bundle_id := some "B1" }

/-- A cart holding only the stale free line and its packed bundle. -/
def staleCart : CartState := ⟨[staleLine], [⟨some "B1"⟩, ⟨some "B2"⟩]⟩

/-- The object identity and `auto_free_source` tag of a line: the
identity-level view preserved by idempotent re-synchronisation. -/
def tagIdOf (l : Line) : ℕ × Option String := (l.objId, l.auto_free_source)

/-- Does the association list hold the key (JS `Map.prototype.has`)? -/
def hasKeyN (ex : List (String × ℕ)) (k : String) : Bool := ex.any (fun p => p.1 = k)

/-- Invariant of the `_syncAutoFreeLines` entry loop: line identities are
pairwise distinct, legacy entries are distinct and realised by untagged
lines, and every `existing` index pair is realised by a line carrying
exactly that nonempty tag. -/
def GoodSync (st : SyncPassState) : Prop :=
  (st.items.map Line.objId).Nodup ∧
    (st.legacy.map LegacyEntry.objId).Nodup ∧
    (∀ e ∈ st.legacy, e.used = false →
        ∃ l ∈ st.items, l.objId = e.objId ∧ truthyS l.auto_free_source = false) ∧
    (∀ p ∈ st.existing, p.1 ≠ "" ∧
        ∃ l ∈ st.items, l.objId = p.2 ∧ l.auto_free_source = some p.1)

/-- The freebie descriptor of the idempotence witness. -/
def wData : Freebie :=
  { rule := some "RULE-1", item_code := some "FREE-ITEM", qty := 1 }

/-- The freebie descriptor of the idempotence counterexample: an empty map
key (no rule name, as server payloads can produce). -/
def cData : Freebie := { item_code := some "FREE-X", qty := 1 }

theorem updatePricingBadge_pricingFields (tr : String → String) (item : Line)
    (d : List Detail) : pricingFieldsOf (updatePricingBadge tr item d) = pricingFieldsOf item := by
  unfold updatePricingBadge
  split <;> rfl

theorem updatePricingBadge_manual_flags (tr : String → String) (item : Line) (d : List Detail) :
    (updatePricingBadge tr item d)._manual_rate_set = item._manual_rate_set ∧
      (updatePricingBadge tr item d)._manual_rate_set_from_uom =
        item._manual_rate_set_from_uom := by
  unfold updatePricingBadge
  split <;> exact ⟨rfl, rfl⟩

theorem applyServerUpdateToItem_manual (env : Env) (info : SameItemInfo) (upd : ServerUpdate)
    (item : Line) (h1 : item._manual_rate_set = true)
    (h2 : item._manual_rate_set_from_uom = false) :
    pricingFieldsOf (applyServerUpdateToItem env info upd item) = pricingFieldsOf item ∧
      (applyServerUpdateToItem env info upd item)._manual_rate_set = true ∧
      (applyServerUpdateToItem env info upd item)._manual_rate_set_from_uom = false := by
  have hallow : allowServerRateUpdateFor env info upd item = false := by
    unfold allowServerRateUpdateFor
    simp [h1, h2]
  unfold applyServerUpdateToItem
  simp only [hallow, Bool.false_eq_true, if_false]
  refine ⟨updatePricingBadge_pricingFields _ _ _, ?_, ?_⟩
  · exact ((updatePricingBadge_manual_flags _ _ _).1).trans h1
  · exact ((updatePricingBadge_manual_flags _ _ _).2).trans h2

theorem applyServerUpdates_manual_frozen (env : Env) (info : SameItemInfo) :
    ∀ (updates : List ServerUpdate) (items : List Line) (j : ℕ) (item : Line),
      items[j]? = some item →
      item._manual_rate_set = true → item._manual_rate_set_from_uom = false →
      ∃ item', (applyServerUpdates env info updates items)[j]? = some item' ∧
        pricingFieldsOf item' = pricingFieldsOf item ∧
        item'._manual_rate_set = true ∧ item'._manual_rate_set_from_uom = false := by
  intro updates
  induction updates with
  | nil => exact fun items j item h h1 h2 => ⟨item, h, rfl, h1, h2⟩
  | cons u rest ih =>
    intro items j item h h1 h2
    have hstep :
        applyServerUpdates env info (u :: rest) items =
          applyServerUpdates env info rest
            (match items.findIdx? (fun l => matchesUpdateTarget u.row_id l) with
             | some i =>
               match items.get? i with
               | some l => items.set i (applyServerUpdateToItem env info u l)
               | none => items
             | none => items) := rfl
    rw [hstep]
    rcases hfind : items.findIdx? (fun l => matchesUpdateTarget u.row_id l) with _ | i <;>
      simp only [hfind]
    · exact ih items j item h h1 h2
    · rcases hget : items.get? i with _ | l <;> simp only [hget]
      · exact ih items j item h h1 h2
      · by_cases hij : i = j
        · subst hij
          have hl : l = item := by
            rw [List.get?_eq_getElem?] at hget
            rw [hget] at h
            exact Option.some.inj h
          subst hl
          have hfrozen := applyServerUpdateToItem_manual env info u l h1 h2
          have hj : (items.set i (applyServerUpdateToItem env info u l))[i]? =
              some (applyServerUpdateToItem env info u l) := by
            have hlen : i < items.length := by
              have := List.get?_eq_getElem? items i
              rw [this] at hget
              exact (List.getElem?_eq_some_iff.mp hget).1
            simp [List.getElem?_set_self, hlen]
          obtain ⟨item', h', hfields, hm1, hm2⟩ :=
            ih (items.set i (applyServerUpdateToItem env info u l)) i
              (applyServerUpdateToItem env info u l) hj hfrozen.2.1 hfrozen.2.2
          exact ⟨item', h', hfields.trans hfrozen.1, hm1, hm2⟩
        · have hj : (items.set i (applyServerUpdateToItem env info u l))[j]? = some item := by
            rw [List.getElem?_set_ne hij]
            exact h
          exact ih _ j item hj h1 h2

theorem applyPricingToLine_manual (env : Env) (ctx : Ctx) (indexes : Indexes)
    (fm : FreebiesMap) (item : Line) (h1 : item._manual_rate_set = true)
    (h2 : item._manual_rate_set_from_uom = false) :
    pricingFieldsOf (applyPricingToLine env ctx indexes item fm).1 = pricingFieldsOf item := by
  unfold applyPricingToLine
  simp only [h1, h2, Bool.not_false, Bool.and_true, Bool.not_true, Bool.and_false]
  split
  · rfl
  · exact updatePricingBadge_pricingFields _ _ _

/-! ## Claims -/

/-- C1: a cart line whose `_manual_rate_set` flag is true (and whose
`_manual_rate_set_from_uom` flag is not) keeps its rate, base rate,
price-list rate, discount amount and discount percentage unchanged through
both the local pricing application (`_applyPricingToLine`) and the server
reconciliation update loop of `_applyServerPricingRules`, regardless of what
the evaluator or the server response proposes. -/
theorem C1_manual_rate_immune (env : Env) (ctx : Ctx) (indexes : Indexes) (fm : FreebiesMap)
    (info : SameItemInfo) (updates : List ServerUpdate) (items : List Line) (j : ℕ)
    (item : Line) (h1 : item._manual_rate_set = true)
    (h2 : item._manual_rate_set_from_uom = false) :
    pricingFieldsOf (applyPricingToLine env ctx indexes item fm).1 = pricingFieldsOf item ∧
      (items[j]? = some item →
        ∃ item', (applyServerUpdates env info updates items)[j]? = some item' ∧
          pricingFieldsOf item' = pricingFieldsOf item) := by
  refine ⟨applyPricingToLine_manual env ctx indexes fm item h1 h2, fun hmem => ?_⟩
  obtain ⟨item', h', hf, _, _⟩ :=
    applyServerUpdates_manual_frozen env info updates items j item hmem h1 h2
  exact ⟨item', h', hf⟩

theorem C1_manual_rate_immune_witness :
    pricingFieldsOf
        (applyPricingToLine { exchange_rate := some 1 } {} {}
          { item_code := some "ITEM-1", posa_row_id := some "ROW-1", qty := some 2,
            rate := some 120, base_rate := some 120, price_list_rate := some 150,
            base_price_list_rate := some 150, discount_amount := some 60,
            base_discount_amount := some 60, discount_percentage := some 40,
            _manual_rate_set := true } []).1 =
      pricingFieldsOf
        { item_code := some "ITEM-1", posa_row_id := some "ROW-1", qty := some 2,
          rate := some 120, base_rate := some 120, price_list_rate := some 150,
          base_price_list_rate := some 150, discount_amount := some 60,
          base_discount_amount := some 60, discount_percentage := some 40,
          _manual_rate_set := true } ∧
      ∃ item',
        (applyServerUpdates { exchange_rate := some 1 } {}
            [{ row_id := some "ROW-1", rate := some 80, price_list_rate := some 110,
               discount_amount := some 30, discount_percentage := some 27 }]
            [{ item_code := some "ITEM-1", posa_row_id := some "ROW-1", qty := some 2,
               rate := some 120, base_rate := some 120, price_list_rate := some 150,
               base_price_list_rate := some 150, discount_amount := some 60,
               base_discount_amount := some 60, discount_percentage := some 40,
               _manual_rate_set := true }])[0]? = some item' ∧
          pricingFieldsOf item' =
            pricingFieldsOf
              { item_code := some "ITEM-1", posa_row_id := some "ROW-1", qty := some 2,
                rate := some 120, base_rate := some 120, price_list_rate := some 150,
                base_price_list_rate := some 150, discount_amount := some 60,
                base_discount_amount := some 60, discount_percentage := some 40,
                _manual_rate_set := true } := by
  have h := C1_manual_rate_immune { exchange_rate := some 1 } {} {} [] {}
    [{ row_id := some "ROW-1", rate := some 80, price_list_rate := some 110,
       discount_amount := some 30, discount_percentage := some 27 }]
    [{ item_code := some "ITEM-1", posa_row_id := some "ROW-1", qty := some 2,
       rate := some 120, base_rate := some 120, price_list_rate := some 150,
       base_price_list_rate := some 150, discount_amount := some 60,
       base_discount_amount := some 60, discount_percentage := some 40,
       _manual_rate_set := true }] 0
    { item_code := some "ITEM-1", posa_row_id := some "ROW-1", qty := some 2,
      rate := some 120, base_rate := some 120, price_list_rate := some 150,
      base_price_list_rate := some 150, discount_amount := some 60,
      base_discount_amount := some 60, discount_percentage := some 40,
      _manual_rate_set := true } rfl rfl
  exact ⟨h.1, h.2 (by decide)⟩

/-- C10: for a cart line whose document quantity and resolved pricing quantity
are both `0`, `_applyPricingToLine` returns without modifying any field of the
line (badge metadata included) and contributes no entries to the cart-wide
freebie map. -/
theorem C10_zero_qty_frame (env : Env) (ctx : Ctx) (indexes : Indexes) (item : Line)
    (fm : FreebiesMap) (hdoc : item.qty.getD 0 = 0) (hqty : resolvePricingQty item = 0) :
    applyPricingToLine env ctx indexes item fm = (item, fm) := by
  unfold applyPricingToLine
  simp [hdoc, hqty]

theorem C10_zero_qty_frame_witness :
    ({ item_code := some "I", qty := some 0 } : Line).qty.getD 0 = 0 ∧
      resolvePricingQty { item_code := some "I", qty := some 0 } = 0 ∧
      applyPricingToLine {} {} {} { item_code := some "I", qty := some 0 } [] =
        ({ item_code := some "I", qty := some 0 }, []) :=
  ⟨by decide, by decide, C10_zero_qty_frame {} {} {} _ [] (by decide) (by decide)⟩

theorem slabStep_inv (qty : ℚ) (p : List Slab) (acc : Option Slab) (s : Slab)
    (h : slabAccInv qty p acc) : slabAccInv qty (p ++ [s]) (selectSlabStep qty acc s) := by
  rcases acc with _ | c
  · unfold selectSlabStep
    show slabAccInv qty (p ++ [s]) (if s.min_qty.getD 0 ≤ qty then some s else none)
    by_cases hq : s.min_qty.getD 0 ≤ qty
    · rw [if_pos hq]
      refine ⟨List.mem_append_right _ (List.mem_singleton_self s), hq, ?_⟩
      intro s' hs' hq'
      rcases List.mem_append.mp hs' with hp | hs
      · exact absurd hq' (h s' hp)
      · rw [List.mem_singleton.mp hs]
    · simp only [hq, if_neg, not_false_eq_true, slabAccInv]
      intro s' hs'
      rcases List.mem_append.mp hs' with hp | hs
      · exact h s' hp
      · rw [List.mem_singleton.mp hs]; exact hq
  · unfold selectSlabStep
    show slabAccInv qty (p ++ [s])
      (if s.min_qty.getD 0 ≤ qty ∧ c.min_qty.getD 0 ≤ s.min_qty.getD 0 then some s else some c)
    obtain ⟨hcp, hcq, hcmax⟩ := h
    by_cases hcond : s.min_qty.getD 0 ≤ qty ∧ c.min_qty.getD 0 ≤ s.min_qty.getD 0
    · rw [if_pos hcond]
      refine ⟨List.mem_append_right _ (List.mem_singleton_self s), hcond.1, ?_⟩
      intro s' hs' hq'
      rcases List.mem_append.mp hs' with hp | hs
      · exact le_trans (hcmax s' hp hq') hcond.2
      · rw [List.mem_singleton.mp hs]
    · rw [if_neg hcond]
      refine ⟨List.mem_append_left _ hcp, hcq, ?_⟩
      intro s' hs' hq'
      rcases List.mem_append.mp hs' with hp | hs
      · exact hcmax s' hp hq'
      · rw [List.mem_singleton.mp hs] at hq' ⊢
        by_contra hlt
        exact hcond ⟨hq', le_of_not_le hlt⟩

theorem slabFold_inv (qty : ℚ) :
    ∀ (l p : List Slab) (acc : Option Slab), slabAccInv qty p acc →
      slabAccInv qty (p ++ l) (l.foldl (selectSlabStep qty) acc) := by
  intro l
  induction l with
  | nil => intro p acc h; simpa using h
  | cons s rest ih =>
    intro p acc h
    have hfold : (s :: rest).foldl (selectSlabStep qty) acc =
        rest.foldl (selectSlabStep qty) (selectSlabStep qty acc s) := rfl
    rw [hfold]
    have := ih (p ++ [s]) (selectSlabStep qty acc s) (slabStep_inv qty p acc s h)
    simpa [List.append_assoc] using this

/-- C8: with a non-empty qualifying slab list, `selectSlab` picks a slab with
the largest `min_qty ≤ effectiveQty`; a present slab value overrides the
rule-level `rate_or_discount`; and the spec's example — a percentage rule with
slabs `[{5, 5%}, {10, 10%}]` evaluated at qty 12 on base 100 — yields rate 90. -/
theorem C8_slab_selection (rule : Rule) (qty : ℚ) :
    ((∃ s ∈ rule.slabs, s.min_qty.getD 0 ≤ qty) →
      ∃ s, selectSlab rule qty = some s ∧ s ∈ rule.slabs ∧ s.min_qty.getD 0 ≤ qty ∧
        ∀ s' ∈ rule.slabs, s'.min_qty.getD 0 ≤ qty →
          s'.min_qty.getD 0 ≤ s.min_qty.getD 0) ∧
    (∀ s v, selectSlab rule qty = some s → s.rate_or_discount = some v →
      resolveSlabValue rule (selectSlab rule qty) = v) ∧
    (evaluatePricingRules { item_code := some "I" } (some 12) none (some 100) {}
        { byItem := [("I",
          [{ name := some "SLAB", price_or_discount := some "Discount",
             discount_type := some "Rate",
             slabs := [⟨some 5, some 5⟩, ⟨some 10, some 10⟩] }])] }).pricing.rate = 90 := by
  refine ⟨?_, ?_, by decide⟩
  · intro ⟨s0, hs0, hq0⟩
    have hinv := slabFold_inv qty rule.slabs [] none (by intro s' hs'; cases hs')
    rw [List.nil_append] at hinv
    rcases hsel : rule.slabs.foldl (selectSlabStep qty) none with _ | s
    · rw [hsel] at hinv
      exact absurd hq0 (hinv s0 hs0)
    · rw [hsel] at hinv
      exact ⟨s, hsel, hinv.1, hinv.2.1, hinv.2.2⟩
  · intro s v hs hv
    rw [hs]
    unfold resolveSlabValue
    simp [hv]

theorem C8_slab_selection_witness :
    ∃ s,
      selectSlab { slabs := [⟨some 5, some 5⟩, ⟨some 10, some 10⟩] } 12 = some s ∧
        s ∈ ({ slabs := [⟨some 5, some 5⟩, ⟨some 10, some 10⟩] } : Rule).slabs ∧
        s.min_qty.getD 0 ≤ 12 ∧
        ∀ s' ∈ ({ slabs := [⟨some 5, some 5⟩, ⟨some 10, some 10⟩] } : Rule).slabs,
          s'.min_qty.getD 0 ≤ 12 → s'.min_qty.getD 0 ≤ s.min_qty.getD 0 :=
  (C8_slab_selection { slabs := [⟨some 5, some 5⟩, ⟨some 10, some 10⟩] }
    12).1 ⟨⟨some 5, some 5⟩, by decide, by decide⟩

theorem jsFloor_le (v : ℚ) : jsFloor v ≤ v := by
  rw [jsFloor, ratFloor_eq_intFloor]
  exact_mod_cast Int.floor_le v

theorem applyFreeItemRule_qty (rule : Rule) (item : Line) (qty : ℚ) (f : Freebie)
    (hf : applyFreeItemRule rule item qty = some f) :
    f.qty = computedFreeQty rule qty ∧ 0 < f.qty := by
  unfold applyFreeItemRule at hf
  by_cases h : computedFreeQty rule qty ≤ 0
  · rw [if_pos h] at hf
    exact Option.noConfusion hf
  · simp only [h, if_neg, not_false_eq_true, Option.some.injEq] at hf
    subst hf
    exact ⟨rfl, lt_of_not_le h⟩

/-- C9: the free-item evaluator computes the threshold multiplier as
`⌊effectiveQty / threshold⌋` under `apply_per_threshold` (threshold following
the `recurse_for || min_qty || 1` chain), else as a `0/1` gate on the
`min_qty || recurse_for || 1` minimum; the resulting free quantity is capped
at `max_free_qty` when present and is an integer when `round_free_qty` is
set; and the spec's example rule `{min_qty: 3, free_qty: 1,
apply_per_threshold, same_item}` at qty 7 yields multiplier 2 and free qty 2. -/
theorem C9_free_item_math (rule : Rule) (item : Line) (qty : ℚ) :
    (rule.apply_per_threshold = true →
      (computeThresholdInfo rule qty).2 =
        jsFloor (qty / jsChainQ [rule.recurse_for, rule.min_qty] 1)) ∧
    (rule.apply_per_threshold = false →
      (computeThresholdInfo rule qty).2 =
        if jsChainQ [rule.min_qty, rule.recurse_for] 1 ≤ qty then 1 else 0) ∧
    (∀ f mfq, rule.max_free_qty = some mfq → applyFreeItemRule rule item qty = some f →
      f.qty ≤ mfq) ∧
    (∀ f, rule.round_free_qty = true → applyFreeItemRule rule item qty = some f →
      ∃ n : ℤ, f.qty = (n : ℚ)) ∧
    ((evaluatePricingRules { item_code := some "I" } (some 7) none none {}
        { byItem := [("I",
          [{ name := some "FREE-1", is_free_item_rule := true, min_qty := some 3,
             free_qty := some 1, apply_per_threshold := true,
             same_item := true }])] }).freebies.map
      (fun f => (f.qty, f.multiplier)) = [(2, 2)]) := by
  refine ⟨?_, ?_, ?_, ?_, by decide⟩
  · intro h; unfold computeThresholdInfo; simp [h]
  · intro h; unfold computeThresholdInfo; simp [h]
  · intro f mfq hm hf
    have hq := (applyFreeItemRule_qty rule item qty f hf).1
    rw [hq]
    unfold computedFreeQty
    rw [hm]
    rcases hr : rule.round_free_qty
    · simp only [hr, Bool.false_eq_true, if_neg, not_false_eq_true]
      exact min_le_right _ _
    · simp only [hr, if_pos]
      exact le_trans (jsFloor_le _) (min_le_right _ _)
  · intro f hr hf
    have hq := (applyFreeItemRule_qty rule item qty f hf).1
    rw [hq]
    unfold computedFreeQty
    rw [hr]
    simp only [if_pos]
    exact ⟨_, rfl⟩

theorem C9_free_item_math_witness :
    ((applyFreeItemRule
        { name := some "FREE-CAP", is_free_item_rule := true, min_qty := some 2,
          free_qty := some 2, apply_per_threshold := true, max_free_qty := some 3 }
        {} 10).getD {}).qty ≤ 3 :=
  (C9_free_item_math
    { name := some "FREE-CAP", is_free_item_rule := true, min_qty := some 2,
      free_qty := some 2, apply_per_threshold := true, max_free_qty := some 3 }
    {} 10).2.2.1 _ 3 rfl (by decide)

theorem roundQ_mono {a b : ℚ} (h : a ≤ b) : roundQ a ≤ roundQ b := by
  unfold roundQ
  rw [ratFloor_eq_intFloor, ratFloor_eq_intFloor]
  have h2 : ⌊a * 1000000 + 1 / 2⌋ ≤ ⌊b * 1000000 + 1 / 2⌋ := Int.floor_le_floor (by linarith)
  have h3 : ((⌊a * 1000000 + 1 / 2⌋ : ℤ) : ℚ) ≤ ((⌊b * 1000000 + 1 / 2⌋ : ℤ) : ℚ) := by
    exact_mod_cast h2
  linarith

theorem roundQ_nonneg {a : ℚ} (h : 0 ≤ a) : 0 ≤ roundQ a := by
  unfold roundQ
  rw [ratFloor_eq_intFloor]
  have h2 : (0 : ℤ) ≤ ⌊a * 1000000 + 1 / 2⌋ := Int.le_floor.mpr (by push_cast; linarith)
  have h3 : (0 : ℚ) ≤ ((⌊a * 1000000 + 1 / 2⌋ : ℤ) : ℚ) := by exact_mod_cast h2
  linarith

theorem applyOneRule_nonneg (rate qty base : ℚ) (r : Rule) (h : r.is_free_item_rule = false) :
    0 ≤ (applyOneRule rate r qty base).newRate := by
  unfold applyOneRule
  rw [h]
  simp only [Bool.false_eq_true, if_false]
  exact le_max_left 0 _

theorem runChain_nonneg (qty base : ℚ) :
    ∀ (rules : List Rule) (rate : ℚ), (∀ r ∈ rules, r.is_free_item_rule = false) →
      0 ≤ rate → 0 ≤ (runChain rate qty base rules).1 := by
  intro rules
  induction rules with
  | nil => intro rate _ h; simpa [runChain] using h
  | cons r rest ih =>
    intro rate hfree hr
    have hstep := applyOneRule_nonneg rate qty base r (hfree r (List.mem_cons_self r rest))
    unfold runChain
    by_cases hs : r.stop_further_rules
    · simpa [hs] using hstep
    · by_cases hm : r.apply_multiple_pricing_rules
      · simp only [hs, hm, Bool.false_eq_true, if_false, not_true, if_neg, not_false_eq_true,
          if_true]
        exact ih (applyOneRule rate r qty base).newRate
          (fun x hx => hfree x (List.mem_cons_of_mem r hx)) hstep
      · simpa [hs, hm] using hstep

theorem insertSorted_mem {x y : Rule} : ∀ {l : List Rule}, y ∈ insertSorted x l →
    y = x ∨ y ∈ l := by
  intro l
  induction l with
  | nil => intro h; simpa [insertSorted] using h
  | cons a l ih =>
    intro h
    unfold insertSorted at h
    split at h
    · rcases List.mem_cons.mp h with h1 | h2
      · exact Or.inl h1
      · exact Or.inr h2
    · rcases List.mem_cons.mp h with h1 | h2
      · exact Or.inr (h1 ▸ List.mem_cons_self a l)
      · rcases ih h2 with h3 | h4
        · exact Or.inl h3
        · exact Or.inr (List.mem_cons_of_mem a h4)

theorem sortRules_mem {y : Rule} : ∀ {l : List Rule}, y ∈ sortRules l → y ∈ l := by
  intro l
  induction l with
  | nil => intro h; simp [sortRules] at h
  | cons a l ih =>
    intro h
    have : y ∈ insertSorted a (sortRules l) := h
    rcases insertSorted_mem this with h1 | h2
    · exact h1 ▸ List.mem_cons_self a l
    · exact List.mem_cons_of_mem a (ih h2)

theorem pricingRulesOf_not_free (item : Line) (ctx : Ctx) (indexes : Indexes)
    (effectiveQty : ℚ) :
    ∀ r ∈ pricingRulesOf item ctx indexes effectiveQty, r.is_free_item_rule = false := by
  intro r hr
  have h1 := sortRules_mem hr
  have h2 := (List.mem_filter.mp h1).1
  have h3 := (List.mem_filter.mp h2).2
  have h4 : ¬ (isFreeRule r = true) := by simpa using h3
  have h5 : isFreeRule r = false := by
    cases hfr : isFreeRule r
    · rfl
    · exact absurd hfr h4
  unfold isFreeRule at h5
  exact (Bool.or_eq_false_iff.mp h5).1

/-- C3 (amended): when the baseline rate the evaluation starts from is
non-negative, the returned `pricing.rate` is ≥ 0 and the returned
`pricing.discountPerUnit` is at most the rounded baseline (`round` at the
engine's 6-decimal precision, which both outputs pass through).  The original
claim, quantified over every input, fails for a negative baseline, and
`discountPerUnit ≤ baseline` fails without the rounding on half-round edges
(see the counterexample). -/
theorem C3_rate_discount_bounds (item : Line) (qty docQty baseRate : Option ℚ) (ctx : Ctx)
    (indexes : Indexes) (h : 0 ≤ startRateOf item baseRate) :
    0 ≤ (evaluatePricingRules item qty docQty baseRate ctx indexes).pricing.rate ∧
      (evaluatePricingRules item qty docQty baseRate ctx indexes).pricing.discountPerUnit ≤
        roundQ (startRateOf item baseRate) := by
  have hpr :
      (evaluatePricingRules item qty docQty baseRate ctx indexes).pricing =
        pricingOutcome (startRateOf item baseRate) (effectiveQtyOf item qty docQty)
          (pricingRulesOf item ctx indexes (effectiveQtyOf item qty docQty)) := rfl
  rw [hpr]
  unfold pricingOutcome
  split
  · exact ⟨roundQ_nonneg h, roundQ_nonneg h⟩
  · have hchain :=
      runChain_nonneg (effectiveQtyOf item qty docQty) (startRateOf item baseRate)
        (pricingRulesOf item ctx indexes (effectiveQtyOf item qty docQty))
        (startRateOf item baseRate)
        (pricingRulesOf_not_free item ctx indexes (effectiveQtyOf item qty docQty)) h
    exact ⟨roundQ_nonneg hchain, roundQ_mono (by linarith)⟩

theorem C3_rate_discount_bounds_witness :
    0 ≤ startRateOf { item_code := some "I" } (some 100) ∧
      0 ≤ (evaluatePricingRules { item_code := some "I" } (some 1) none (some 100) {}
          {}).pricing.rate ∧
      (evaluatePricingRules { item_code := some "I" } (some 1) none (some 100) {}
          {}).pricing.discountPerUnit ≤
        roundQ (startRateOf { item_code := some "I" } (some 100)) :=
  ⟨by decide,
    (C3_rate_discount_bounds { item_code := some "I" } (some 1) none (some 100) {} {}
      (by decide)).1,
    (C3_rate_discount_bounds { item_code := some "I" } (some 1) none (some 100) {} {}
      (by decide)).2⟩

theorem C3_counterexample :
    (evaluatePricingRules { item_code := some "I" } (some 1) none (some (-5)) {} {}).pricing.rate
        < 0 ∧
      startRateOf { item_code := some "I" } (some (1 / 2000000)) < (evaluatePricingRules
          { item_code := some "I" } (some 1) none (some (1 / 2000000)) {}
          { byItem := [("I",
            [{ name := some "FULL", price_or_discount := some "Discount",
               discount_type := some "Rate",
               rate_or_discount := some 100 }])] }).pricing.discountPerUnit := by
  constructor
  · decide
  · decide

/-- C2 (amended): during server reconciliation, a paid-line update is not
applied — the line's local rate, price-list rate and discount values are all
retained — whenever a `same_item` freebie references the line (by parent row
id or item code), the line's original base rate is positive, and the
server-resolved values trip the zeroing/full-discount condition actually
checked by the code (`serverZeroedValues || serverFullDiscount ||
fallbackFullDiscount`).  The original claim's broader trigger — "the returned
rate/price-list-rate/discount is zeroed" — is not sufficient: when the line's
original base price-list rate and discount are not positive, a fully zeroed
update passes the guard and is applied (see the counterexample). -/
theorem C2_same_item_zeroing_guard (env : Env) (info : SameItemInfo) (upd : ServerUpdate)
    (item : Line) (h1 : hasSameItemFree info upd item = true)
    (h2 : 0 < originalBaseOf env item.base_rate item.rate)
    (h3 : serverZeroedOrFullDiscount env upd item = true) :
    pricingFieldsOf (applyServerUpdateToItem env info upd item) = pricingFieldsOf item := by
  have hallow : allowServerRateUpdateFor env info upd item = false := by
    unfold allowServerRateUpdateFor
    simp [h1, h3, decide_eq_true h2]
  unfold applyServerUpdateToItem
  simp only [hallow, Bool.false_eq_true, if_false]
  exact updatePricingBadge_pricingFields _ _ _

theorem C2_same_item_zeroing_guard_witness :
    pricingFieldsOf
        (applyServerUpdateToItem { exchange_rate := some 1, currency_precision := some 2 }
          { codes := ["ITEM-SAME-NP"] }
          { row_id := some "ROW-4", rate := some 0, price_list_rate := some 0,
            discount_amount := some 0, discount_percentage := some 0 }
          { item_code := some "ITEM-SAME-NP", posa_row_id := some "ROW-4", qty := some 2,
            rate := some 60, base_rate := some 60, price_list_rate := some 80,
            base_price_list_rate := some 80, discount_amount := some 20,
            base_discount_amount := some 20, discount_percentage := some 25 }) =
      pricingFieldsOf
        { item_code := some "ITEM-SAME-NP", posa_row_id := some "ROW-4", qty := some 2,
          rate := some 60, base_rate := some 60, price_list_rate := some 80,
          base_price_list_rate := some 80, discount_amount := some 20,
          base_discount_amount := some 20, discount_percentage := some 25 } :=
  C2_same_item_zeroing_guard { exchange_rate := some 1, currency_precision := some 2 }
    { codes := ["ITEM-SAME-NP"] }
    { row_id := some "ROW-4", rate := some 0, price_list_rate := some 0,
      discount_amount := some 0, discount_percentage := some 0 }
    { item_code := some "ITEM-SAME-NP", posa_row_id := some "ROW-4", qty := some 2,
      rate := some 60, base_rate := some 60, price_list_rate := some 80,
      base_price_list_rate := some 80, discount_amount := some 20,
      base_discount_amount := some 20, discount_percentage := some 25 }
    (by decide) (by decide) (by decide)

theorem C2_counterexample :
    (({ row_id := some "ROW-Z", rate := some 0, price_list_rate := some 0,
        discount_amount := some 0, discount_percentage := some 0 } : ServerUpdate).rate =
      some 0) ∧
      hasSameItemFree { codes := ["X"] }
          { row_id := some "ROW-Z", rate := some 0, price_list_rate := some 0,
            discount_amount := some 0, discount_percentage := some 0 }
          { item_code := some "X", posa_row_id := some "ROW-Z", qty := some 1,
            rate := some 100, base_rate := some 100, price_list_rate := some 0,
            base_price_list_rate := some 0, discount_amount := some 0,
            base_discount_amount := some 0, discount_percentage := some 0 } = true ∧
      ({ item_code := some "X", posa_row_id := some "ROW-Z", qty := some 1,
          rate := some 100, base_rate := some 100, price_list_rate := some 0,
          base_price_list_rate := some 0, discount_amount := some 0,
          base_discount_amount := some 0, discount_percentage := some 0 } : Line).base_rate =
        some 100 ∧
      (applyServerUpdateToItem { exchange_rate := some 1, currency_precision := some 2 }
          { codes := ["X"] }
          { row_id := some "ROW-Z", rate := some 0, price_list_rate := some 0,
            discount_amount := some 0, discount_percentage := some 0 }
          { item_code := some "X", posa_row_id := some "ROW-Z", qty := some 1,
            rate := some 100, base_rate := some 100, price_list_rate := some 0,
            base_price_list_rate := some 0, discount_amount := some 0,
            base_discount_amount := some 0, discount_percentage := some 0 }).base_rate =
        some 0 := by
  refine ⟨rfl, by decide, rfl, by decide⟩

theorem ite_lt_eq_min (a b : ℚ) : (if a < b then a else b) = min a b := by
  split
  · exact (min_eq_left (le_of_lt ‹_›)).symm
  · exact (min_eq_right (le_of_not_lt ‹_›)).symm

theorem ite_gt_eq_min (a b : ℚ) : (if a > b then b else a) = min a b := by
  split
  · exact (min_eq_right (le_of_lt ‹_›)).symm
  · exact (min_eq_left (le_of_not_lt ‹_›)).symm

/-- C4 (amended): for a line that is not locked, not promotion-applied and not
manually overridden (and whose quantities are not both zero, so pricing
applies), the final base rate written by `_applyPricingToLine` is
`min(max(baseline − d, 0), min(proposedRate, baseline))` where
`d = min(|proposedDiscount|, max(baseline, 0))` is the clamped proposed
discount per unit; the stored base discount per unit is exactly `d`.  In
particular the final rate never exceeds `min(proposedRate, baseline)` — the
engine never raises a rate above its baseline — and `d ∈ [0, max(baseline,0)]`.
The original claim's equality `finalRate = min(proposedRate, baseline)` fails
when the evaluator proposes a rate increase (negative proposed discount, e.g.
a margin rule): the code then applies `|proposedDiscount|` as a positive
discount and lowers the rate below the baseline (see the counterexample,
which matches the repository's own unit test). -/
theorem C4_rate_clamp (env : Env) (ctx : Ctx) (indexes : Indexes) (item : Line)
    (fm : FreebiesMap) (hl : item.locked_price = false) (ho : item.posa_offer_applied = false)
    (hm : item._manual_rate_set = false ∨ item._manual_rate_set_from_uom = true)
    (hq : ¬(|item.qty.getD 0| = 0 ∧ |resolvePricingQty item| = 0)) :
    (applyPricingToLine env ctx indexes item fm).1.base_rate =
        some (min
          (max (resolveBaseRate item -
            min |(evaluatePricingRules item (some |resolvePricingQty item|)
                (some |item.qty.getD 0|) (some (resolveBaseRate item)) ctx
                indexes).pricing.discountPerUnit| (max (resolveBaseRate item) 0)) 0)
          (min (evaluatePricingRules item (some |resolvePricingQty item|)
              (some |item.qty.getD 0|) (some (resolveBaseRate item)) ctx
              indexes).pricing.rate (resolveBaseRate item))) ∧
      (applyPricingToLine env ctx indexes item fm).1.base_discount_amount =
        some (min |(evaluatePricingRules item (some |resolvePricingQty item|)
            (some |item.qty.getD 0|) (some (resolveBaseRate item)) ctx
            indexes).pricing.discountPerUnit| (max (resolveBaseRate item) 0)) ∧
      min
          (max (resolveBaseRate item -
            min |(evaluatePricingRules item (some |resolvePricingQty item|)
                (some |item.qty.getD 0|) (some (resolveBaseRate item)) ctx
                indexes).pricing.discountPerUnit| (max (resolveBaseRate item) 0)) 0)
          (min (evaluatePricingRules item (some |resolvePricingQty item|)
              (some |item.qty.getD 0|) (some (resolveBaseRate item)) ctx
              indexes).pricing.rate (resolveBaseRate item)) ≤ resolveBaseRate item ∧
      0 ≤ min |(evaluatePricingRules item (some |resolvePricingQty item|)
          (some |item.qty.getD 0|) (some (resolveBaseRate item)) ctx
          indexes).pricing.discountPerUnit| (max (resolveBaseRate item) 0) ∧
      min |(evaluatePricingRules item (some |resolvePricingQty item|)
          (some |item.qty.getD 0|) (some (resolveBaseRate item)) ctx
          indexes).pricing.discountPerUnit| (max (resolveBaseRate item) 0) ≤
        max (resolveBaseRate item) 0 := by
  have hallow : (!item.locked_price && !item.posa_offer_applied &&
      !(item._manual_rate_set && !item._manual_rate_set_from_uom)) = true := by
    rcases hm with hm | hm <;> simp [hl, ho, hm]
  refine ⟨?_, ?_, (min_le_right _ _).trans (min_le_right _ _),
    le_min (abs_nonneg _) (le_max_right _ _), min_le_right _ _⟩
  · unfold applyPricingToLine
    rw [if_neg hq]
    simp only [hallow, if_pos]
    rw [ite_gt_eq_min, ite_lt_eq_min]
    simp [min_comm, min_left_comm, min_assoc]
  · unfold applyPricingToLine
    rw [if_neg hq]
    simp only [hallow, if_pos]
    rw [ite_gt_eq_min]
    rw [abs_of_nonneg (le_min (abs_nonneg _) (le_max_right _ _))]

theorem C4_rate_clamp_witness :
    (applyPricingToLine { exchange_rate := some 1 } {}
        { byItem := [("I",
          [{ name := some "DISC-10", price_or_discount := some "Discount",
             discount_type := some "Rate", rate_or_discount := some 10 }])] }
        { item_code := some "I", qty := some 1, base_price_list_rate := some 100,
          posa_row_id := some "R" } []).1.base_discount_amount =
      some (min
        |(evaluatePricingRules
            { item_code := some "I", qty := some 1, base_price_list_rate := some 100,
              posa_row_id := some "R" }
            (some |resolvePricingQty
              { item_code := some "I", qty := some 1, base_price_list_rate := some 100,
                posa_row_id := some "R" }|)
            (some |({ item_code := some "I", qty := some 1, base_price_list_rate := some 100,
                      posa_row_id := some "R" } : Line).qty.getD 0|)
            (some (resolveBaseRate
              { item_code := some "I", qty := some 1, base_price_list_rate := some 100,
                posa_row_id := some "R" })) {}
            { byItem := [("I",
              [{ name := some "DISC-10", price_or_discount := some "Discount",
                 discount_type := some "Rate",
                 rate_or_discount := some 10 }])] }).pricing.discountPerUnit|
        (max (resolveBaseRate
          { item_code := some "I", qty := some 1, base_price_list_rate := some 100,
            posa_row_id := some "R" }) 0)) :=
  (C4_rate_clamp { exchange_rate := some 1 } {}
    { byItem := [("I",
      [{ name := some "DISC-10", price_or_discount := some "Discount",
         discount_type := some "Rate", rate_or_discount := some 10 }])] }
    { item_code := some "I", qty := some 1, base_price_list_rate := some 100,
      posa_row_id := some "R" } [] rfl rfl (Or.inl rfl) (by decide)).2.1

theorem C4_counterexample :
    ((applyPricingToLine { exchange_rate := some 1 } {}
        { byItem := [("ITEM-NEG",
          [{ name := some "MARGIN", price_or_discount := some "Discount",
             discount_type := some "Margin", margin_type := some "Amount",
             margin_rate_or_amount := some 10 }])] }
        { item_code := some "ITEM-NEG", qty := some 1, price_list_rate := some 100,
          base_price_list_rate := some 100, rate := some 100, base_rate := some 100,
          posa_row_id := some "R1" } []).1.base_rate ≠
      some (min
        (evaluatePricingRules
          { item_code := some "ITEM-NEG", qty := some 1, price_list_rate := some 100,
            base_price_list_rate := some 100, rate := some 100, base_rate := some 100,
            posa_row_id := some "R1" } (some 1) (some 1) (some 100) {}
          { byItem := [("ITEM-NEG",
            [{ name := some "MARGIN", price_or_discount := some "Discount",
               discount_type := some "Margin", margin_type := some "Amount",
               margin_rate_or_amount := some 10 }])] }).pricing.rate
        (resolveBaseRate
          { item_code := some "ITEM-NEG", qty := some 1, price_list_rate := some 100,
            base_price_list_rate := some 100, rate := some 100, base_rate := some 100,
            posa_row_id := some "R1" }))) ∧
      ((applyPricingToLine { exchange_rate := some 1 } {}
          { byItem := [("ITEM-TINY",
            [{ name := some "DISC-10", price_or_discount := some "Discount",
               discount_type := some "Rate", rate_or_discount := some 10 }])] }
          { item_code := some "ITEM-TINY", qty := some 1,
            base_price_list_rate := some (100 + 1 / 2500000),
            posa_row_id := some "R2" } []).1.base_discount_amount ≠
        some ((100 + 1 / 2500000) - 90)) ∧
      ((applyPricingToLine { exchange_rate := some 1 } {}
          { byItem := [("ITEM-TINY",
            [{ name := some "DISC-10", price_or_discount := some "Discount",
               discount_type := some "Rate", rate_or_discount := some 10 }])] }
          { item_code := some "ITEM-TINY", qty := some 1,
            base_price_list_rate := some (100 + 1 / 2500000),
            posa_row_id := some "R2" } []).1.base_rate = some 90) := by
  refine ⟨by decide, by decide, by decide⟩

theorem lexLtB_irrefl : ∀ l : List Char, lexLtB l l = false
  | [] => rfl
  | c :: rest => by
    unfold lexLtB
    simp [lexLtB_irrefl rest]

theorem lexLtB_asymm : ∀ a b : List Char, lexLtB a b = true → lexLtB b a = false
  | [], [] => by simp [lexLtB]
  | [], _ :: _ => by simp [lexLtB]
  | _ :: _, [] => by simp [lexLtB]
  | x :: xs, y :: ys => by
    unfold lexLtB
    by_cases h1 : x.toNat < y.toNat
    · intro _
      simp [h1, show ¬ y.toNat < x.toNat by omega]
    · by_cases h2 : y.toNat < x.toNat
      · simp [h1, h2]
      · simp only [h1, h2, if_false]
        exact lexLtB_asymm xs ys

theorem lexLtB_trans : ∀ a b c : List Char,
    lexLtB a b = true → lexLtB b c = true → lexLtB a c = true
  | [], [], _, hab, _ => by simp [lexLtB] at hab
  | [], _ :: _, [], _, hbc => by simp [lexLtB] at hbc
  | [], _ :: _, _ :: _, _, _ => by simp [lexLtB]
  | _ :: _, [], _, hab, _ => by simp [lexLtB] at hab
  | _ :: _, _ :: _, [], _, hbc => by simp [lexLtB] at hbc
  | x :: xs, y :: ys, z :: zs, hab, hbc => by
    unfold lexLtB at hab hbc ⊢
    by_cases h1 : x.toNat < y.toNat <;> by_cases h2 : y.toNat < z.toNat
    · simp [show x.toNat < z.toNat by omega]
    · by_cases h3 : z.toNat < y.toNat
      · simp [h2, h3] at hbc
      · simp [show x.toNat < z.toNat by omega]
    · by_cases h4 : y.toNat < x.toNat
      · simp [h1, h4] at hab
      · simp [show x.toNat < z.toNat by omega]
    · by_cases h3 : z.toNat < y.toNat
      · simp [h2, h3] at hbc
      · by_cases h4 : y.toNat < x.toNat
        · simp [h1, h4] at hab
        · simp only [h1, h4, if_false] at hab
          simp only [h2, h3, if_false] at hbc
          simp only [show ¬ x.toNat < z.toNat by omega, show ¬ z.toNat < x.toNat by omega,
            if_false]
          exact lexLtB_trans xs ys zs hab hbc

theorem lexLtB_eq_of_not : ∀ a b : List Char,
    lexLtB a b = false → lexLtB b a = false → a = b
  | [], [], _, _ => rfl
  | [], _ :: _, hab, _ => by simp [lexLtB] at hab
  | _ :: _, [], _, hba => by simp [lexLtB] at hba
  | x :: xs, y :: ys, hab, hba => by
    unfold lexLtB at hab hba
    by_cases h1 : x.toNat < y.toNat
    · simp [h1] at hab
    · by_cases h2 : y.toNat < x.toNat
      · simp [h1, h2] at hba
      · have h1' : ¬ x.val.toNat < y.val.toNat := h1
        have h2' : ¬ y.val.toNat < x.val.toNat := h2
        have hx : x = y := Char.eq_of_val_eq (UInt32.ext (by omega))
        simp only [h1, h2, if_false] at hab hba
        rw [hx, lexLtB_eq_of_not xs ys hab hba]

theorem strLtB_asymm (a b : String) (h : strLtB a b = true) : strLtB b a = false :=
  lexLtB_asymm a.data b.data h

theorem strLtB_trans (a b c : String) (h1 : strLtB a b = true) (h2 : strLtB b c = true) :
    strLtB a c = true :=
  lexLtB_trans a.data b.data c.data h1 h2

theorem strLtB_eq_of_not (a b : String) (h1 : strLtB a b = false) (h2 : strLtB b a = false) :
    a = b := by
  cases a; cases b
  exact congrArg String.mk (lexLtB_eq_of_not _ _ h1 h2)

theorem localeCompareQ_lt_iff (a b : String) :
    localeCompareQ a b < 0 ↔ strLtB a b = true := by
  unfold localeCompareQ
  rcases hab : strLtB a b
  · rcases hba : strLtB b a <;> simp [hab, hba]
  · simp [hab]

theorem localeCompareQ_neg (a b : String) : localeCompareQ a b = -(localeCompareQ b a) := by
  unfold localeCompareQ
  rcases hab : strLtB a b <;> rcases hba : strLtB b a
  · simp [hab, hba]
  · simp [hab, hba]
  · simp [hab, hba]
  · have := strLtB_asymm a b hab
    rw [hba] at this
    cases this

theorem localeCompareQ_eq_zero (a b : String) (h : localeCompareQ a b = 0) : a = b := by
  unfold localeCompareQ at h
  rcases hab : strLtB a b
  · rcases hba : strLtB b a
    · exact strLtB_eq_of_not a b hab hba
    · rw [hab, hba] at h
      norm_num at h
  · rw [hab] at h
    norm_num at h

theorem ruleSort_neg (a b : Rule) : ruleSort a b = -(ruleSort b a) := by
  unfold ruleSort
  by_cases h1 : b.specificity.getD 0 = a.specificity.getD 0
  · rw [if_neg (not_ne_iff.mpr h1), if_neg (not_ne_iff.mpr h1.symm)]
    by_cases h2 : b.priority.getD 0 = a.priority.getD 0
    · rw [if_neg (not_ne_iff.mpr h2), if_neg (not_ne_iff.mpr h2.symm)]
      by_cases h3 : ruleBenefitScore b - ruleBenefitScore a = 0
      · rw [if_neg (not_ne_iff.mpr h3),
          if_neg (not_ne_iff.mpr (show ruleBenefitScore a - ruleBenefitScore b = 0 by linarith))]
        exact localeCompareQ_neg _ _
      · rw [if_pos h3, if_pos (show ruleBenefitScore a - ruleBenefitScore b ≠ 0 from
          fun h => h3 (by linarith))]
        ring
    · rw [if_pos h2, if_pos (fun h => h2 h.symm)]
      ring
  · rw [if_pos h1, if_pos (fun h => h1 h.symm)]
    ring

theorem ruleSort_lt_iff (a b : Rule) : ruleSort a b < 0 ↔ ruleKeyLT a b := by
  unfold ruleSort ruleKeyLT
  by_cases h1 : b.specificity.getD 0 = a.specificity.getD 0
  · rw [if_neg (not_ne_iff.mpr h1)]
    by_cases h2 : b.priority.getD 0 = a.priority.getD 0
    · rw [if_neg (not_ne_iff.mpr h2)]
      by_cases h3 : ruleBenefitScore b - ruleBenefitScore a = 0
      · rw [if_neg (not_ne_iff.mpr h3), localeCompareQ_lt_iff]
        constructor
        · intro h
          exact Or.inr ⟨h1, Or.inr ⟨h2, Or.inr ⟨by linarith, h⟩⟩⟩
        · rintro (h | ⟨_, h | ⟨_, h | ⟨_, h⟩⟩⟩)
          · linarith
          · linarith
          · linarith
          · exact h
      · rw [if_pos h3]
        constructor
        · intro h
          exact Or.inr ⟨h1, Or.inr ⟨h2, Or.inl (by linarith)⟩⟩
        · rintro (h | ⟨_, h | ⟨_, h | ⟨heq, _⟩⟩⟩)
          · linarith
          · linarith
          · linarith
          · exact absurd (show ruleBenefitScore b - ruleBenefitScore a = 0 by linarith) h3
    · rw [if_pos h2]
      constructor
      · intro h
        exact Or.inr ⟨h1, Or.inl (by linarith)⟩
      · rintro (h | ⟨_, h | ⟨heq, _⟩⟩)
        · linarith
        · linarith
        · exact absurd heq h2
  · rw [if_pos h1]
    constructor
    · intro h
      exact Or.inl (by linarith)
    · rintro (h | ⟨heq, _⟩)
      · linarith
      · exact absurd heq h1

theorem ruleKeyLT_trans {a b c : Rule} (h1 : ruleKeyLT a b) (h2 : ruleKeyLT b c) :
    ruleKeyLT a c := by
  unfold ruleKeyLT at h1 h2 ⊢
  rcases h1 with h1 | ⟨e1, h1⟩ <;> rcases h2 with h2 | ⟨e2, h2⟩
  · exact Or.inl (by linarith)
  · exact Or.inl (by linarith)
  · exact Or.inl (by linarith)
  · refine Or.inr ⟨by linarith, ?_⟩
    rcases h1 with h1 | ⟨f1, h1⟩ <;> rcases h2 with h2 | ⟨f2, h2⟩
    · exact Or.inl (by linarith)
    · exact Or.inl (by linarith)
    · exact Or.inl (by linarith)
    · refine Or.inr ⟨by linarith, ?_⟩
      rcases h1 with h1 | ⟨g1, h1⟩ <;> rcases h2 with h2 | ⟨g2, h2⟩
      · exact Or.inl (by linarith)
      · exact Or.inl (by linarith)
      · exact Or.inl (by linarith)
      · exact Or.inr ⟨by linarith, strLtB_trans _ _ _ h1 h2⟩

theorem ruleSort_ne_of_name_ne (a b : Rule) (h : jsOrS a.name "" ≠ jsOrS b.name "") :
    ruleSort a b ≠ 0 := by
  unfold ruleSort
  by_cases h1 : b.specificity.getD 0 = a.specificity.getD 0
  · rw [if_neg (not_ne_iff.mpr h1)]
    by_cases h2 : b.priority.getD 0 = a.priority.getD 0
    · rw [if_neg (not_ne_iff.mpr h2)]
      by_cases h3 : ruleBenefitScore b - ruleBenefitScore a = 0
      · rw [if_neg (not_ne_iff.mpr h3)]
        intro h0
        exact h (localeCompareQ_eq_zero _ _ h0)
      · rw [if_pos h3]
        exact h3
    · rw [if_pos h2]
      intro h0
      exact h2 (by linarith)
  · rw [if_pos h1]
    intro h0
    exact h1 (by linarith)

/-- C7: the `ruleSort` comparator is a strict, deterministic total order on
rules with pairwise-distinct names — it never returns 0 for distinct names,
it is sign-antisymmetric and transitive — and a negative comparison holds
exactly when the first rule precedes the second in the lexicographic key
order (specificity desc, priority desc, benefit score desc, name asc). -/
theorem C7_rule_sort_total_order (a b c : Rule) :
    (jsOrS a.name "" ≠ jsOrS b.name "" → ruleSort a b ≠ 0) ∧
      (ruleSort a b < 0 ↔ 0 < ruleSort b a) ∧
      (ruleSort a b < 0 → ruleSort b c < 0 → ruleSort a c < 0) ∧
      (ruleSort a b < 0 ↔ ruleKeyLT a b) := by
  refine ⟨ruleSort_ne_of_name_ne a b, ?_, ?_, ruleSort_lt_iff a b⟩
  · rw [ruleSort_neg a b]
    constructor <;> intro h <;> linarith
  · intro h1 h2
    exact (ruleSort_lt_iff a c).mpr
      (ruleKeyLT_trans ((ruleSort_lt_iff a b).mp h1) ((ruleSort_lt_iff b c).mp h2))

theorem C7_rule_sort_total_order_witness :
    ruleSort { name := some "A", specificity := some 3 }
        { name := some "B", specificity := some 1 } ≠ 0 ∧
      ruleSort { name := some "A", specificity := some 3 }
        { name := some "B", specificity := some 1 } < 0 :=
  ⟨(C7_rule_sort_total_order { name := some "A", specificity := some 3 }
      { name := some "B", specificity := some 1 }
      { name := some "B", specificity := some 1 }).1 (by decide),
    (C7_rule_sort_total_order { name := some "A", specificity := some 3 }
      { name := some "B", specificity := some 1 }
      { name := some "B", specificity := some 1 }).2.2.2.mpr (Or.inl (by decide))⟩

theorem packedStep_subset (acc : List PackedItem) (l : Line) (p : PackedItem)
    (hp : p ∈ packedStep acc l) : p ∈ acc := by
  unfold packedStep at hp
  split at hp
  · exact (List.mem_filter.mp hp).1
  · exact hp

theorem packedFold_subset : ∀ (ls : List Line) (acc : List PackedItem) (p : PackedItem),
    p ∈ ls.foldl packedStep acc → p ∈ acc
  | [], _, _, hp => hp
  | l :: ls, acc, p, hp => packedStep_subset acc l p (packedFold_subset ls (packedStep acc l) p hp)

theorem packedFold_clears : ∀ (ls : List Line) (acc : List PackedItem) (l : Line),
    l ∈ ls → truthyS l.bundle_id = true →
    ∀ p ∈ ls.foldl packedStep acc, (p.bundle_id == l.bundle_id) = false
  | [], _, _, hmem, _, _, _ => absurd hmem (List.not_mem_nil _)
  | a :: ls, acc, l, hmem, htr, p, hp => by
    rcases List.mem_cons.mp hmem with heq | htail
    · subst heq
      have hp' : p ∈ packedStep acc l := packedFold_subset ls (packedStep acc l) p hp
      unfold packedStep at hp'
      rw [if_pos htr] at hp'
      have h2 := (List.mem_filter.mp hp').2
      simpa using h2
    · exact packedFold_clears ls (packedStep acc a) l htail htr p hp

/-- C6: after `_syncAutoFreeLines` with freebie map `m`, every surviving line
that carries a truthy `auto_free_source` tag has that tag among `m`'s keys;
and every line of the pass that carries a stale tag is removed, together with
every packed item of its bundle. -/
theorem C6_stale_tag_removed (env : Env) (st : CartState) (m : FreebiesMap) :
    (∀ l ∈ (syncAutoFreeLines env st m).items,
        truthyS l.auto_free_source = true →
          (m.map Prod.fst).contains (l.auto_free_source.getD "") = true) ∧
      (∀ l ∈ (syncLoop env st.items m).items,
          removableTag (m.map Prod.fst) l = true →
            l ∉ (syncAutoFreeLines env st m).items ∧
              (truthyS l.bundle_id = true →
                ∀ p ∈ (syncAutoFreeLines env st m).packed_items,
                  (p.bundle_id == l.bundle_id) = false)) := by
  constructor
  · intro l hl htag
    have hl' : l ∈ (syncLoop env st.items m).items.filter
        (fun l => !(removableTag (m.map Prod.fst) l)) := hl
    have h2 := (List.mem_filter.mp hl').2
    rcases hc : (m.map Prod.fst).contains (l.auto_free_source.getD "")
    · exfalso
      unfold removableTag at h2
      rw [htag, hc] at h2
      exact absurd h2 (by decide)
    · rfl
  · intro l hlpass hrem
    constructor
    · intro hkept
      have hkept' : l ∈ (syncLoop env st.items m).items.filter
          (fun l => !(removableTag (m.map Prod.fst) l)) := hkept
      have h2 := (List.mem_filter.mp hkept').2
      rw [hrem] at h2
      simp at h2
    · intro hb p hp
      have hp' : p ∈ ((syncLoop env st.items m).items.filter
          (fun l => removableTag (m.map Prod.fst) l)).foldl packedStep st.packed_items := hp
      exact packedFold_clears _ st.packed_items l
        (List.mem_filter.mpr ⟨hlpass, hrem⟩) hb p hp'

theorem C6_stale_tag_removed_witness :
    staleLine ∉ (syncAutoFreeLines {} staleCart []).items ∧
      ∀ p ∈ (syncAutoFreeLines {} staleCart []).packed_items,
        (p.bundle_id == staleLine.bundle_id) = false :=
  (C6_stale_tag_removed {} staleCart []).2 staleLine (by decide) (by decide) |>.imp
    id (fun h => h (by decide))


theorem truthyS_eq_true {o : Option String} : truthyS o = true ↔ ∃ s, o = some s ∧ s ≠ "" := by
  cases o <;> simp [truthyS]

theorem applyFreeLinePricing_tagId (env : Env) (l : Line) (d : Freebie) (q : ℚ) :
    tagIdOf (applyFreeLinePricing env l d q) = tagIdOf l := by
  simp only [applyFreeLinePricing]
  repeat' split
  all_goals rfl

theorem applyFreeLinePricing_qty (env : Env) (l : Line) (d : Freebie) (q : ℚ) :
    (applyFreeLinePricing env l d q).qty = l.qty := by
  simp only [applyFreeLinePricing]

theorem writeStockQty_tagId (env : Env) (l : Line) :
    tagIdOf (writeStockQty env l) = tagIdOf l := rfl

theorem writeStockQty_qty (env : Env) (l : Line) : (writeStockQty env l).qty = l.qty := rfl

theorem updateQtyLimits_tagId (env : Env) (l : Line) :
    tagIdOf (updateQtyLimits env l) = tagIdOf l := by
  simp only [updateQtyLimits]
  repeat' split
  all_goals rfl

theorem updateQtyLimits_qty (env : Env) (l : Line) :
    (updateQtyLimits env l).qty = l.qty := by
  simp only [updateQtyLimits]
  repeat' split
  all_goals rfl

theorem applyCalcItemPrice_tagId (env : Env) (l : Line) :
    tagIdOf (applyCalcItemPrice env l) = tagIdOf l := rfl

theorem finishFreeLine_tagId (env : Env) (d : Freebie) (q : ℚ) (l : Line) :
    tagIdOf (finishFreeLine env d q l) = tagIdOf l := by
  simp only [finishFreeLine, applyFreeLinePricing]
  repeat' split
  all_goals rfl

theorem tagIdOf_objId {a b : Line} (h : tagIdOf a = tagIdOf b) : a.objId = b.objId :=
  congrArg Prod.fst h

theorem tagIdOf_tag {a b : Line} (h : tagIdOf a = tagIdOf b) :
    a.auto_free_source = b.auto_free_source :=
  congrArg Prod.snd h

theorem updateById_map {α : Type} (g : Line → α) (f : Line → Line) (items : List Line) (oid : ℕ)
    (hf : ∀ l, g (f l) = g l) : (updateById items oid f).map g = items.map g := by
  unfold updateById
  rw [List.map_map]
  refine List.map_congr_left (fun l _ => ?_)
  by_cases h : l.objId = oid <;> simp [h, hf]

theorem mem_updateById {items : List Line} {oid : ℕ} {f : Line → Line} {l : Line}
    (h : l ∈ items) : (if l.objId = oid then f l else l) ∈ updateById items oid f :=
  List.mem_map_of_mem _ h

theorem updateById_of_ne {items : List Line} {oid : ℕ} {f : Line → Line} {l : Line}
    (hl : l ∈ items) (h : l.objId ≠ oid) : l ∈ updateById items oid f := by
  have h0 := @mem_updateById items oid f l hl
  rwa [if_neg h] at h0

theorem updateById_of_eq {items : List Line} {oid : ℕ} {f : Line → Line} {l : Line}
    (hl : l ∈ items) (h : l.objId = oid) : f l ∈ updateById items oid f := by
  have h0 := @mem_updateById items oid f l hl
  rwa [if_pos h] at h0

theorem updateById_transport {items : List Line} {oid : ℕ} {f : Line → Line}
    (hf : ∀ l, tagIdOf (f l) = tagIdOf l) {l : Line} (hl : l ∈ items) :
    ∃ l' ∈ updateById items oid f, tagIdOf l' = tagIdOf l := by
  refine ⟨if l.objId = oid then f l else l, mem_updateById hl, ?_⟩
  by_cases h : l.objId = oid <;> simp [h, hf]

theorem assocGetN_some_mem {ex : List (String × ℕ)} {k : String} {oid : ℕ}
    (h : assocGetN ex k = some oid) : (k, oid) ∈ ex := by
  unfold assocGetN at h
  rcases hfind : ex.find? (fun p => p.1 = k) with _ | p
  · rw [hfind] at h
    cases h
  · rw [hfind] at h
    have hp := List.find?_some hfind
    have hmem := List.mem_of_find?_eq_some hfind
    have hk : p.1 = k := by simpa using hp
    have hoid : p.2 = oid := by simpa using h
    rcases p with ⟨a, b⟩
    simp only at hk hoid
    rw [← hk, ← hoid]
    exact hmem

theorem hasKeyN_getN_isSome {ex : List (String × ℕ)} {k : String}
    (h : hasKeyN ex k = true) : ∃ v, assocGetN ex k = some v := by
  unfold hasKeyN at h
  rcases List.any_eq_true.mp h with ⟨p, hp, hpk⟩
  unfold assocGetN
  rcases hfind : ex.find? (fun p => p.1 = k) with _ | q
  · rw [List.find?_eq_none] at hfind
    exact absurd hpk (by simpa using hfind p hp)
  · exact ⟨q.2, by rw [hfind]; rfl⟩

theorem assocSetN_mem {ex : List (String × ℕ)} {k : String} {v : ℕ} :
    ∀ p ∈ assocSetN ex k v, p ∈ ex ∨ p = (k, v) := by
  intro p hp
  unfold assocSetN at hp
  split at hp
  · rcases List.mem_map.mp hp with ⟨q, hq, hqe⟩
    by_cases h : q.1 = k
    · rw [if_pos h] at hqe
      exact Or.inr hqe.symm
    · rw [if_neg h] at hqe
      exact Or.inl (hqe ▸ hq)
  · rcases List.mem_append.mp hp with h | h
    · exact Or.inl h
    · exact Or.inr (by simpa using h)

theorem assocSetN_hasKey_self (ex : List (String × ℕ)) (k : String) (v : ℕ) :
    hasKeyN (assocSetN ex k v) k = true := by
  unfold hasKeyN assocSetN
  split
  · next hany =>
    rcases List.any_eq_true.mp hany with ⟨p, hp, hpk⟩
    refine List.any_eq_true.mpr ⟨(k, v), ?_, by simp⟩
    refine List.mem_map.mpr ⟨p, hp, ?_⟩
    rw [if_pos (by simpa using hpk)]
  · exact List.any_eq_true.mpr ⟨(k, v), List.mem_append.mpr (Or.inr (by simp)), by simp⟩

theorem assocSetN_hasKey_mono {ex : List (String × ℕ)} {k : String}
    (h : hasKeyN ex k = true) (k' : String) (v : ℕ) :
    hasKeyN (assocSetN ex k' v) k = true := by
  rcases List.any_eq_true.mp h with ⟨p, hp, hpk⟩
  unfold assocSetN
  split
  · refine List.any_eq_true.mpr ?_
    by_cases hq : p.1 = k'
    · exact ⟨(k', v), List.mem_map.mpr ⟨p, hp, by rw [if_pos hq]⟩, by
        simp only [decide_eq_true_eq] at hpk ⊢
        rw [← hq, hpk]⟩
    · exact ⟨p, List.mem_map.mpr ⟨p, hp, by rw [if_neg hq]⟩, hpk⟩
  · exact List.any_eq_true.mpr ⟨p, List.mem_append.mpr (Or.inl hp), hpk⟩

theorem le_foldr_max : ∀ (l : List ℕ) (x : ℕ), x ∈ l → x ≤ l.foldr max 0
  | [], _, h => absurd h (List.not_mem_nil _)
  | a :: l, x, h => by
    rcases List.mem_cons.mp h with rfl | h
    · exact le_max_left _ _
    · exact le_trans (le_foldr_max l x h) (le_max_right _ _)

theorem freshObjId_not_mem (items : List Line) :
    freshObjId items ∉ items.map Line.objId := by
  intro h
  have := le_foldr_max _ _ h
  unfold freshObjId at this
  omega

theorem applyFreeLinePricing_objId (env : Env) (l : Line) (d : Freebie) (q : ℚ) :
    (applyFreeLinePricing env l d q).objId = l.objId :=
  tagIdOf_objId (applyFreeLinePricing_tagId env l d q)
theorem applyFreeLinePricing_tag (env : Env) (l : Line) (d : Freebie) (q : ℚ) :
    (applyFreeLinePricing env l d q).auto_free_source = l.auto_free_source :=
  tagIdOf_tag (applyFreeLinePricing_tagId env l d q)

theorem adoptLegacy_spec : ∀ (ic : Option String) (nr : String) (leg : List LegacyEntry)
    (oid : ℕ) (leg' : List LegacyEntry), adoptLegacy ic nr leg = some (oid, leg') →
    leg'.map LegacyEntry.objId = leg.map LegacyEntry.objId ∧
      (∃ e ∈ leg, e.used = false ∧ e.objId = oid) ∧
      ((leg.map LegacyEntry.objId).Nodup →
        ∀ e' ∈ leg', e'.used = false → e' ∈ leg ∧ e'.objId ≠ oid)
  | _, _, [], _, _, h => by simp [adoptLegacy] at h
  | ic, nr, e :: rest, oid, leg', h => by
    unfold adoptLegacy at h
    split at h
    · next hcond =>
      rcases Option.some.inj h with ⟨rfl, rfl⟩
      refine ⟨rfl, ⟨e, List.mem_cons_self _ _, by
        rcases hcond with ⟨hu, _, _⟩
        exact ⟨by simpa using hu, rfl⟩⟩, ?_⟩
      intro hnd e' he' hu'
      rcases List.mem_cons.mp he' with rfl | he'
      · simp at hu'
      · refine ⟨List.mem_cons_of_mem _ he', ?_⟩
        have he'id : e'.objId ∈ rest.map LegacyEntry.objId := List.mem_map_of_mem _ he'
        have : e.objId ∉ rest.map LegacyEntry.objId := (List.nodup_cons.mp hnd).1
        intro hc
        rw [hc] at he'id
        exact this he'id
    · next hcond =>
      rcases hrec : adoptLegacy ic nr rest with _ | ⟨oid2, rest'⟩
      · rw [hrec] at h
        cases h
      · rw [hrec] at h
        rcases Option.some.inj h with ⟨rfl, rfl⟩
        obtain ⟨hmap, ⟨e2, he2, hu2, hid2⟩, hrest⟩ := adoptLegacy_spec ic nr rest oid rest' hrec
        refine ⟨by simpa using hmap, ⟨e2, List.mem_cons_of_mem _ he2, hu2, hid2⟩, ?_⟩
        intro hnd e' he' hu'
        have hnd' := List.nodup_cons.mp hnd
        rcases List.mem_cons.mp he' with rfl | he'
        · refine ⟨List.mem_cons_self _ _, ?_⟩
          intro hc
          have : oid ∈ rest.map LegacyEntry.objId := by
            rw [← hid2]
            exact List.mem_map_of_mem _ he2
          rw [← hc] at this
          exact hnd'.1 this
        · obtain ⟨hmem, hne⟩ := hrest hnd'.2 e' he' hu'
          exact ⟨List.mem_cons_of_mem _ hmem, hne⟩

theorem syncEntryStep_update (env : Env) (st : SyncPassState) (k : String) (data : Freebie)
    (oid : ℕ) (hget : assocGetN st.existing k = some oid) :
    syncEntryStep env st k data =
      { st with items := applyFreeLineStateM env st.items oid data } := by
  unfold syncEntryStep
  rw [hget]

theorem syncEntryStep_adopt (env : Env) (st : SyncPassState) (k : String) (data : Freebie)
    (oid : ℕ) (legacy' : List LegacyEntry)
    (hget : assocGetN st.existing k = none)
    (had : adoptLegacy data.item_code (jsOrS data.rule "") st.legacy = some (oid, legacy')) :
    syncEntryStep env st k data =
      { items := applyFreeLineStateM env
          (updateById st.items oid (fun l =>
            { l with auto_free_source := some k, parent_row_id := data.parentRowId }))
          oid data,
        existing := assocSetN st.existing k oid,
        legacy := legacy' } := by
  unfold syncEntryStep
  rw [hget]
  simp only [had]

theorem syncEntryStep_create (env : Env) (st : SyncPassState) (k : String) (data : Freebie)
    (hget : assocGetN st.existing k = none)
    (had : adoptLegacy data.item_code (jsOrS data.rule "") st.legacy = none) :
    ∃ nl pos, pos ≤ st.items.length ∧ nl.objId = freshObjId st.items ∧
      nl.auto_free_source = some k ∧ nl.qty = some (fltF env data.qty) ∧
      syncEntryStep env st k data =
        { st with items := calcStockQtyMethod env (st.items.insertIdx pos nl) nl.objId } := by
  unfold syncEntryStep
  rw [hget]
  simp only [had]
  refine ⟨_, _, ?_, ?_, ?_, ?_, rfl⟩
  · rcases hidx : st.items.findIdx? (fun l => l.posa_row_id == data.parentRowId) with _ | i
    · simp [hidx]
    · simp only [hidx]
      exact (List.findIdx?_eq_some_iff_findIdx_eq.mp hidx).1
  · rw [applyFreeLinePricing_objId]
    repeat' split
    all_goals rfl
  · rw [applyFreeLinePricing_tag]
  · rw [applyFreeLinePricing_qty]
    repeat' split
    all_goals rfl

theorem map_objId_of_map_tagId {a b : List Line} (h : a.map tagIdOf = b.map tagIdOf) :
    a.map Line.objId = b.map Line.objId := by
  have h2 := congrArg (List.map Prod.fst) h
  simpa [List.map_map, Function.comp, tagIdOf] using h2

theorem mem_of_map_tagId {a b : List Line} (h : a.map tagIdOf = b.map tagIdOf) {l : Line}
    (hl : l ∈ b) : ∃ l' ∈ a, tagIdOf l' = tagIdOf l := by
  have : tagIdOf l ∈ a.map tagIdOf := by
    rw [h]
    exact List.mem_map_of_mem _ hl
  exact List.mem_map.mp this

theorem calcStockQtyMethod_frame (env : Env) (items : List Line) (oid : ℕ)
    (hbs : blockSaleB env = false)
    (hq : ∀ l ∈ items, l.objId = oid → l.qty.getD 0 ≠ 0) :
    (calcStockQtyMethod env items oid).map tagIdOf = items.map tagIdOf := by
  have h1 : (updateById items oid (fun l => updateQtyLimits env (writeStockQty env l))).map tagIdOf
      = items.map tagIdOf :=
    updateById_map tagIdOf _ _ _ (fun l => by
      rw [updateQtyLimits_tagId, writeStockQty_tagId])
  have hcl : ∀ l : Line, clampCond env l = false := by
    intro l
    unfold clampCond
    rw [hbs]
    rfl
  unfold calcStockQtyMethod
  rcases hfind : (updateById items oid (fun l => updateQtyLimits env (writeStockQty env l))).find?
      (fun l => l.objId == oid) with _ | l
  · simp only [hfind]
    exact h1
  · have hoid : l.objId = oid := by
      have := List.find?_some hfind
      simpa using this
    have hlq : l.qty.getD 0 ≠ 0 := by
      have hmem := List.mem_of_find?_eq_some hfind
      rcases List.mem_map.mp hmem with ⟨l0, hl0, hle⟩
      by_cases h0 : l0.objId = oid
      · rw [if_pos h0] at hle
        rw [← hle, updateQtyLimits_qty, writeStockQty_qty]
        exact hq l0 hl0 h0
      · rw [if_neg h0] at hle
        rw [← hle] at hoid
        exact absurd hoid h0
    simp only [hfind, hcl l, Bool.false_eq_true, if_false, hlq]
    exact h1

theorem applyFreeLineStateM_frame (env : Env) (items : List Line) (oid : ℕ) (data : Freebie)
    (hbs : blockSaleB env = false) (hqd : fltF env data.qty ≠ 0) :
    (applyFreeLineStateM env items oid data).map tagIdOf = items.map tagIdOf := by
  unfold applyFreeLineStateM
  rcases hfind : items.find? (fun l => l.objId == oid) with _ | line0
  · simp only [hfind]
  · simp only [hfind]
    rw [updateById_map tagIdOf _ _ _ (finishFreeLine_tagId env data (fltF env data.qty))]
    have hstage : ∀ its : List Line,
        (if truthyS data.uom ∧ ¬(line0.uom == data.uom) then
            updateById its oid (fun l => { l with uom := data.uom })
          else its).map tagIdOf = its.map tagIdOf := by
      intro its
      split
      · exact updateById_map tagIdOf _ _ _ (fun l => rfl)
      · rfl
    have hconv : ∀ its : List Line,
        (match data.conversion_factor with
          | some parsed =>
            if parsed > 0 then
              updateById its oid (fun l => { l with conversion_factor := some parsed })
            else its
          | none => its).map tagIdOf = its.map tagIdOf := by
      intro its
      rcases hc : data.conversion_factor with _ | p
      · simp only [hc]
      · simp only [hc]
        split
        · exact updateById_map tagIdOf _ _ _ (fun l => rfl)
        · rfl
    split
    · rw [calcStockQtyMethod_frame env _ oid hbs ?_]
      · rw [updateById_map tagIdOf
            (fun l => { l with qty := some (fltF env data.qty), stock_qty := some data.stock_qty })
            _ _ (fun l => rfl), hconv, hstage]
      · intro l hl hlo
        rcases List.mem_map.mp hl with ⟨l0, hl0, hle⟩
        by_cases h0 : l0.objId = oid
        · rw [if_pos h0] at hle
          rw [← hle]
          exact hqd
        · rw [if_neg h0] at hle
          rw [← hle] at hlo
          exact absurd hlo h0
    · rw [updateById_map tagIdOf (fun l => { l with stock_qty := some data.stock_qty })
          _ _ (fun l => rfl), hconv, hstage]

theorem syncIndexStep_cases (acc : List (String × ℕ) × List LegacyEntry) (l : Line) :
    (truthyS l.auto_free_source = true ∧
        syncIndexStep acc l = (assocSetN acc.1 (l.auto_free_source.getD "") l.objId, acc.2)) ∨
      (truthyS l.auto_free_source = false ∧
        (syncIndexStep acc l = (acc.1, acc.2 ++ [⟨l.objId, l.item_code, resolveRuleName l, false⟩]) ∨
          syncIndexStep acc l = acc)) := by
  by_cases h : truthyS l.auto_free_source = true
  · exact Or.inl ⟨h, by simp [syncIndexStep, h]⟩
  · have h' : truthyS l.auto_free_source = false := by simpa using h
    refine Or.inr ⟨h', ?_⟩
    by_cases h2 : l.is_free_item = true
    · by_cases h3 : resolveRuleName l = ""
      · exact Or.inr (by simp [syncIndexStep, h', h2, h3])
      · exact Or.inl (by simp [syncIndexStep, h', h2, h3])
    · have h2' : l.is_free_item = false := by simpa using h2
      exact Or.inr (by simp [syncIndexStep, h', h2'])

theorem buildSyncFold_good (full : List Line) (hfull : (full.map Line.objId).Nodup) :
    ∀ (rest seen : List Line) (acc : List (String × ℕ) × List LegacyEntry),
      seen ++ rest = full →
      (acc.2.map LegacyEntry.objId).Nodup →
      (∀ e ∈ acc.2, e.used = false ∧ e.objId ∈ seen.map Line.objId ∧
          ∃ l ∈ full, l.objId = e.objId ∧ truthyS l.auto_free_source = false) →
      (∀ p ∈ acc.1, p.1 ≠ "" ∧ ∃ l ∈ full, l.objId = p.2 ∧ l.auto_free_source = some p.1) →
      ((rest.foldl syncIndexStep acc).2.map LegacyEntry.objId).Nodup ∧
        (∀ e ∈ (rest.foldl syncIndexStep acc).2, e.used = false ∧
            ∃ l ∈ full, l.objId = e.objId ∧ truthyS l.auto_free_source = false) ∧
        (∀ p ∈ (rest.foldl syncIndexStep acc).1, p.1 ≠ "" ∧
            ∃ l ∈ full, l.objId = p.2 ∧ l.auto_free_source = some p.1) := by
  intro rest
  induction rest with
  | nil =>
    intro seen acc hsplit hnd hleg hex
    exact ⟨hnd, fun e he => ⟨(hleg e he).1, (hleg e he).2.2⟩, hex⟩
  | cons l rest ih =>
    intro seen acc hsplit hnd hleg hex
    have hmem_l : l ∈ full := by
      rw [← hsplit]
      exact List.mem_append.mpr (Or.inr (List.mem_cons_self _ _))
    have hsplit' : (seen ++ [l]) ++ rest = full := by rw [← hsplit]; simp
    simp only [List.foldl_cons]
    rcases syncIndexStep_cases acc l with ⟨htr, heq⟩ | ⟨htr, heq | heq⟩
    · rw [heq]
      refine ih (seen ++ [l]) _ hsplit' (by simpa using hnd) ?_ ?_
      · intro e he
        obtain ⟨hu, hseen, hreal⟩ := hleg e he
        exact ⟨hu, by simpa using Or.inl hseen, hreal⟩
      · intro p hp
        rcases assocSetN_mem p hp with hold | hnew
        · exact hex p hold
        · obtain ⟨s, hs, hsne⟩ := truthyS_eq_true.mp htr
          subst hnew
          constructor
          · simpa [hs] using hsne
          · exact ⟨l, hmem_l, rfl, by simp [hs]⟩
    · rw [heq]
      have hlid_notin_seen : l.objId ∉ seen.map Line.objId := by
        have hfull' : ((seen ++ l :: rest).map Line.objId).Nodup := by rw [hsplit]; exact hfull
        rw [List.map_append] at hfull'
        have hdisj := (List.nodup_append.mp hfull').2.2
        intro hin
        exact hdisj hin (by simp)
      refine ih (seen ++ [l]) _ hsplit' ?_ ?_ hex
      · simp only [List.map_append]
        refine List.nodup_append.mpr ⟨hnd, by simp, ?_⟩
        intro x hx hx'
        have hx'' : x = l.objId := by simpa using hx'
        rcases List.mem_map.mp hx with ⟨e, he, hea⟩
        have hseen := (hleg e he).2.1
        rw [hea, hx''] at hseen
        exact hlid_notin_seen hseen
      · intro e he
        rcases List.mem_append.mp he with hold | hnew
        · obtain ⟨hu, hseen, hreal⟩ := hleg e hold
          exact ⟨hu, by simpa using Or.inl hseen, hreal⟩
        · have he' : e = ⟨l.objId, l.item_code, resolveRuleName l, false⟩ := by simpa using hnew
          subst he'
          exact ⟨rfl, by simp, ⟨l, hmem_l, rfl, htr⟩⟩
    · rw [heq]
      refine ih (seen ++ [l]) _ hsplit' hnd ?_ hex
      intro e he
      obtain ⟨hu, hseen, hreal⟩ := hleg e he
      exact ⟨hu, by simpa using Or.inl hseen, hreal⟩

theorem syncIndexStep_hasKey {acc : List (String × ℕ) × List LegacyEntry} {k : String}
    (h : hasKeyN acc.1 k = true) (l : Line) : hasKeyN (syncIndexStep acc l).1 k = true := by
  rcases syncIndexStep_cases acc l with ⟨_, heq⟩ | ⟨_, heq | heq⟩ <;> rw [heq]
  · exact assocSetN_hasKey_mono h _ _
  · exact h
  · exact h

theorem buildSyncFold_hasKey {k : String} (hk : k ≠ "") :
    ∀ (rest : List Line) (acc : List (String × ℕ) × List LegacyEntry),
      (hasKeyN acc.1 k = true ∨ ∃ l ∈ rest, l.auto_free_source = some k) →
      hasKeyN (rest.foldl syncIndexStep acc).1 k = true := by
  intro rest
  induction rest with
  | nil =>
    intro acc h
    rcases h with h | ⟨l, hl, _⟩
    · exact h
    · exact absurd hl (List.not_mem_nil _)
  | cons l rest ih =>
    intro acc h
    simp only [List.foldl_cons]
    rcases h with h | ⟨l', hl', htag⟩
    · exact ih _ (Or.inl (syncIndexStep_hasKey h l))
    · rcases List.mem_cons.mp hl' with rfl | htail
      · refine ih _ (Or.inl ?_)
        have htr : truthyS l'.auto_free_source = true := by
          rw [htag]
          simp [truthyS, hk]
        rcases syncIndexStep_cases acc l' with ⟨_, heq⟩ | ⟨hf, _⟩
        · rw [heq]
          have hgd : l'.auto_free_source.getD "" = k := by rw [htag]; rfl
          rw [hgd]
          exact assocSetN_hasKey_self _ _ _
        · rw [htr] at hf
          cases hf
      · exact ih _ (Or.inr ⟨l', htail, htag⟩)

theorem buildSyncIndex_good (items : List Line) (h : (items.map Line.objId).Nodup) :
    GoodSync ⟨items, (buildSyncIndex items).1, (buildSyncIndex items).2⟩ := by
  obtain ⟨hnd, hleg, hex⟩ := buildSyncFold_good items h items [] ([], []) rfl (by simp)
      (fun e he => absurd he (List.not_mem_nil _))
      (fun p hp => absurd hp (List.not_mem_nil _))
  exact ⟨h, hnd, fun e he _ => (hleg e he).2, fun p hp => hex p hp⟩

theorem syncEntryStep_good (env : Env) (st : SyncPassState) (k : String) (data : Freebie)
    (hG : GoodSync st) (hk : k ≠ "")
    (hbs : blockSaleB env = false) (hqd : fltF env data.qty ≠ 0) :
    GoodSync (syncEntryStep env st k data) ∧
      (∀ k', k' ≠ "" → (∃ l ∈ st.items, l.auto_free_source = some k') →
          ∃ l ∈ (syncEntryStep env st k data).items, l.auto_free_source = some k') ∧
      (∃ l ∈ (syncEntryStep env st k data).items, l.auto_free_source = some k) := by
  obtain ⟨hndI, hndL, hleg, hex⟩ := hG
  rcases hget : assocGetN st.existing k with _ | oid
  · -- no live tagged line: adopt a legacy line or create a new one
    rcases had : adoptLegacy data.item_code (jsOrS data.rule "") st.legacy with _ | ⟨oid, legacy'⟩
    · -- create: insert the synthesized line, then run the stock-qty method on it
      obtain ⟨nl, pos, hpos, hnlid, hnltag, hnlqty, heq⟩ := syncEntryStep_create env st k data hget had
      rw [heq]
      have hperm : List.Perm (st.items.insertIdx pos nl) (nl :: st.items) :=
        List.perm_insertIdx nl st.items hpos
      have hmem_of : ∀ l ∈ st.items, l ∈ st.items.insertIdx pos nl := fun l hl =>
        hperm.mem_iff.mpr (List.mem_cons_of_mem _ hl)
      have hnl_mem : nl ∈ st.items.insertIdx pos nl :=
        hperm.mem_iff.mpr (List.mem_cons_self _ _)
      have hqarg : ∀ l ∈ st.items.insertIdx pos nl, l.objId = nl.objId → l.qty.getD 0 ≠ 0 := by
        intro l hl hlo
        rcases (List.mem_insertIdx hpos).mp hl with rfl | hmem
        · rw [hnlqty]
          simpa using hqd
        · exfalso
          have : l.objId ∈ st.items.map Line.objId := List.mem_map_of_mem _ hmem
          rw [hlo, hnlid] at this
          exact freshObjId_not_mem st.items this
      have hframe := calcStockQtyMethod_frame env (st.items.insertIdx pos nl) nl.objId hbs hqarg
      have htrans := fun {l} (hl : l ∈ st.items.insertIdx pos nl) => mem_of_map_tagId hframe hl
      refine ⟨⟨?_, hndL, ?_, ?_⟩, ?_, ?_⟩
      · rw [map_objId_of_map_tagId hframe]
        refine ((hperm.map Line.objId).nodup_iff).mpr ?_
        simp only [List.map_cons]
        refine List.nodup_cons.mpr ⟨?_, hndI⟩
        rw [hnlid]
        exact freshObjId_not_mem st.items
      · intro e he hu
        obtain ⟨l, hl, hlid, hltag⟩ := hleg e he hu
        obtain ⟨l', hl', htid⟩ := htrans (hmem_of l hl)
        exact ⟨l', hl', by rw [tagIdOf_objId htid, hlid], by rw [tagIdOf_tag htid, hltag]⟩
      · intro p hp
        obtain ⟨hpne, l, hl, hlid, hltag⟩ := hex p hp
        obtain ⟨l', hl', htid⟩ := htrans (hmem_of l hl)
        exact ⟨hpne, l', hl', by rw [tagIdOf_objId htid, hlid], by rw [tagIdOf_tag htid, hltag]⟩
      · rintro k' _ ⟨l, hl, htag⟩
        obtain ⟨l', hl', htid⟩ := htrans (hmem_of l hl)
        exact ⟨l', hl', by rw [tagIdOf_tag htid, htag]⟩
      · obtain ⟨l', hl', htid⟩ := htrans hnl_mem
        exact ⟨l', hl', by rw [tagIdOf_tag htid, hnltag]⟩
    · -- adopt: retag the legacy line, then refresh it in place
      rw [syncEntryStep_adopt env st k data oid legacy' hget had]
      obtain ⟨hmapL, ⟨e0, he0, hu0, hid0⟩, hunused⟩ := adoptLegacy_spec _ _ _ _ _ had
      obtain ⟨l0, hl0, hl0id, hl0tag⟩ := hleg e0 he0 hu0
      have hne_oid : ∀ l ∈ st.items, truthyS l.auto_free_source = true → l.objId ≠ oid := by
        intro l hl htag hceq
        have hleq : l = l0 :=
          List.inj_on_of_nodup_map hndI hl hl0 (by rw [hceq, hl0id, hid0])
        rw [hleq, hl0tag] at htag
        cases htag
      have hframe := applyFreeLineStateM_frame env
        (updateById st.items oid (fun l =>
          { l with auto_free_source := some k, parent_row_id := data.parentRowId }))
        oid data hbs hqd
      have htrans := fun {l} (hl : l ∈ updateById st.items oid (fun l =>
          { l with auto_free_source := some k, parent_row_id := data.parentRowId })) =>
        mem_of_map_tagId hframe hl
      refine ⟨⟨?_, ?_, ?_, ?_⟩, ?_, ?_⟩
      · rw [map_objId_of_map_tagId hframe,
          updateById_map Line.objId
            (fun l => { l with auto_free_source := some k, parent_row_id := data.parentRowId })
            _ _ (fun l => rfl)]
        exact hndI
      · rw [hmapL]
        exact hndL
      · intro e' he' hu'
        obtain ⟨he'old, hne⟩ := hunused hndL e' he' hu'
        obtain ⟨l, hl, hlid, hltag⟩ := hleg e' he'old hu'
        obtain ⟨l', hl', htid⟩ := htrans (updateById_of_ne hl (by rw [hlid]; exact hne))
        exact ⟨l', hl', by rw [tagIdOf_objId htid, hlid], by rw [tagIdOf_tag htid, hltag]⟩
      · intro p hp
        rcases assocSetN_mem p hp with hold | hnew
        · obtain ⟨hpne, l, hl, hlid, hltag⟩ := hex p hold
          obtain ⟨l', hl', htid⟩ := htrans (updateById_of_ne hl (hne_oid l hl (by
            rw [hltag]
            simp [truthyS, hpne])))
          exact ⟨hpne, l', hl', by rw [tagIdOf_objId htid, hlid], by rw [tagIdOf_tag htid, hltag]⟩
        · subst hnew
          obtain ⟨l', hl', htid⟩ := htrans (updateById_of_eq hl0 (hl0id.trans hid0))
          refine ⟨hk, l', hl', ?_, ?_⟩
          · rw [tagIdOf_objId htid]
            show l0.objId = oid
            rw [hl0id, hid0]
          · rw [tagIdOf_tag htid]
      · rintro k' hk' ⟨l, hl, htag⟩
        obtain ⟨l', hl', htid⟩ := htrans (updateById_of_ne hl (hne_oid l hl (by
          rw [htag]
          simp [truthyS, hk'])))
        exact ⟨l', hl', by rw [tagIdOf_tag htid, htag]⟩
      · obtain ⟨l', hl', htid⟩ := htrans (updateById_of_eq hl0 (hl0id.trans hid0))
        exact ⟨l', hl', by rw [tagIdOf_tag htid]⟩
  · -- live tagged line: update in place
    rw [syncEntryStep_update env st k data oid hget]
    have hframe := applyFreeLineStateM_frame env st.items oid data hbs hqd
    have htrans := fun {l} (hl : l ∈ st.items) => mem_of_map_tagId hframe hl
    refine ⟨⟨?_, hndL, ?_, ?_⟩, ?_, ?_⟩
    · rw [map_objId_of_map_tagId hframe]
      exact hndI
    · intro e he hu
      obtain ⟨l, hl, hlid, hltag⟩ := hleg e he hu
      obtain ⟨l', hl', htid⟩ := htrans hl
      exact ⟨l', hl', by rw [tagIdOf_objId htid, hlid], by rw [tagIdOf_tag htid, hltag]⟩
    · intro p hp
      obtain ⟨hpne, l, hl, hlid, hltag⟩ := hex p hp
      obtain ⟨l', hl', htid⟩ := htrans hl
      exact ⟨hpne, l', hl', by rw [tagIdOf_objId htid, hlid], by rw [tagIdOf_tag htid, hltag]⟩
    · rintro k' _ ⟨l, hl, htag⟩
      obtain ⟨l', hl', htid⟩ := htrans hl
      exact ⟨l', hl', by rw [tagIdOf_tag htid, htag]⟩
    · obtain ⟨hpne, l, hl, hlid, hltag⟩ := hex (k, oid) (assocGetN_some_mem hget)
      obtain ⟨l', hl', htid⟩ := htrans hl
      exact ⟨l', hl', by rw [tagIdOf_tag htid, hltag]⟩

theorem syncFold_good (env : Env) (hbs : blockSaleB env = false) :
    ∀ (m' : FreebiesMap) (st : SyncPassState), GoodSync st →
      (∀ kv ∈ m', kv.1 ≠ "" ∧ fltF env kv.2.qty ≠ 0) →
      GoodSync (m'.foldl (fun s kv => syncEntryStep env s kv.1 kv.2) st) ∧
        (∀ k', k' ≠ "" → (∃ l ∈ st.items, l.auto_free_source = some k') →
            ∃ l ∈ (m'.foldl (fun s kv => syncEntryStep env s kv.1 kv.2) st).items,
              l.auto_free_source = some k') ∧
        (∀ kv ∈ m', ∃ l ∈ (m'.foldl (fun s kv => syncEntryStep env s kv.1 kv.2) st).items,
            l.auto_free_source = some kv.1) := by
  intro m'
  induction m' with
  | nil =>
    intro st hG _
    exact ⟨hG, fun k' _ h => h, fun kv hkv => absurd hkv (List.not_mem_nil _)⟩
  | cons kv m' ih =>
    intro st hG hkeys
    have hk : kv.1 ≠ "" := (hkeys kv (List.mem_cons_self _ _)).1
    obtain ⟨hG1, hpres1, hown1⟩ := syncEntryStep_good env st kv.1 kv.2 hG hk hbs
      (hkeys kv (List.mem_cons_self _ _)).2
    simp only [List.foldl_cons]
    obtain ⟨hG2, hpres2, hown2⟩ := ih (syncEntryStep env st kv.1 kv.2) hG1
      (fun kv' h => hkeys kv' (List.mem_cons_of_mem _ h))
    refine ⟨hG2, ?_, ?_⟩
    · intro k' hk' hw
      exact hpres2 k' hk' (hpres1 k' hk' hw)
    · intro kv' hkv'
      rcases List.mem_cons.mp hkv' with rfl | h
      · exact hpres2 kv'.1 hk hown1
      · exact hown2 kv' h

theorem sync_result_props (env : Env) (st : CartState) (m : FreebiesMap)
    (hbs : blockSaleB env = false)
    (hids : (st.items.map Line.objId).Nodup) (hkeys : ∀ k ∈ m.map Prod.fst, k ≠ "")
    (hqs : ∀ kv ∈ m, fltF env kv.2.qty ≠ 0) :
    ∀ kv ∈ m, ∃ l ∈ (syncAutoFreeLines env st m).items, l.auto_free_source = some kv.1 := by
  intro kv hkv
  have hG0 := buildSyncIndex_good st.items hids
  obtain ⟨hG, hpres, hown⟩ := syncFold_good env hbs m
      ⟨st.items, (buildSyncIndex st.items).1, (buildSyncIndex st.items).2⟩ hG0
      (fun kv' h => ⟨hkeys kv'.1 (List.mem_map_of_mem _ h), hqs kv' h⟩)
  obtain ⟨l, hl, htag⟩ := hown kv hkv
  have hl' : l ∈ (syncLoop env st.items m).items := hl
  refine ⟨l, ?_, htag⟩
  show l ∈ (syncLoop env st.items m).items.filter
      (fun l => !(removableTag (m.map Prod.fst) l))
  refine List.mem_filter.mpr ⟨hl', ?_⟩
  have hcont : (m.map Prod.fst).contains kv.1 = true :=
    List.elem_eq_true_of_mem (List.mem_map_of_mem _ hkv)
  simp only [removableTag, htag, Bool.not_eq_true']
  simp [hcont]
  exact fun _ => ⟨kv.2, by simpa using hkv⟩

theorem pass2_frame (env : Env) (hbs : blockSaleB env = false) :
    ∀ (m' : FreebiesMap) (st : SyncPassState),
      (∀ kv ∈ m', hasKeyN st.existing kv.1 = true ∧ fltF env kv.2.qty ≠ 0) →
      ((m'.foldl (fun s kv => syncEntryStep env s kv.1 kv.2) st).items.map tagIdOf
          = st.items.map tagIdOf) ∧
        (m'.foldl (fun s kv => syncEntryStep env s kv.1 kv.2) st).existing = st.existing := by
  intro m'
  induction m' with
  | nil =>
    intro st _
    exact ⟨rfl, rfl⟩
  | cons kv m' ih =>
    intro st hkeys
    obtain ⟨v, hget⟩ := hasKeyN_getN_isSome (hkeys kv (List.mem_cons_self _ _)).1
    simp only [List.foldl_cons]
    rw [syncEntryStep_update env st kv.1 kv.2 v hget]
    obtain ⟨hitems, hexist⟩ := ih
      { st with items := applyFreeLineStateM env st.items v kv.2 }
      (fun kv' h => hkeys kv' (List.mem_cons_of_mem _ h))
    refine ⟨?_, hexist⟩
    rw [hitems]
    exact applyFreeLineStateM_frame env st.items v kv.2 hbs
      (hkeys kv (List.mem_cons_self _ _)).2

theorem removableTag_congr {ks : List String} {a b : Line}
    (h : a.auto_free_source = b.auto_free_source) : removableTag ks a = removableTag ks b := by
  unfold removableTag
  rw [h]

/-- C5 (amended): when every freebie key is a nonempty string, every freebie
quantity is nonzero after `flt`, selling beyond available stock is not
blocked (so the `calc_stock_qty` clamp-and-remove path cannot fire), and
cart line identities are pairwise distinct, re-applying `_syncAutoFreeLines`
with the same map is idempotent at the object level — the second pass
preserves the exact sequence of line identities and tags (no creation,
removal or recreation) and leaves the packed items untouched.  The original
claim, which had no nonemptiness condition on the keys, is refuted by
`C5_counterexample`; a zero-quantity entry or a block-sale clamp to a zero
maximum can likewise remove a line mid-pass via `calc_stock_qty` →
`remove_item`, which is why the quantity and block-sale hypotheses are
needed. -/
theorem C5_sync_idempotent (env : Env) (st : CartState) (m : FreebiesMap)
    (hbs : blockSaleB env = false)
    (hids : (st.items.map Line.objId).Nodup)
    (hkeys : ∀ k ∈ m.map Prod.fst, k ≠ "")
    (hqs : ∀ kv ∈ m, fltF env kv.2.qty ≠ 0) :
    (syncAutoFreeLines env (syncAutoFreeLines env st m) m).items.map tagIdOf
        = (syncAutoFreeLines env st m).items.map tagIdOf ∧
      (syncAutoFreeLines env (syncAutoFreeLines env st m) m).packed_items
        = (syncAutoFreeLines env st m).packed_items := by
  have hwit := sync_result_props env st m hbs hids hkeys hqs
  have hidx : ∀ kv ∈ m,
      hasKeyN (buildSyncIndex (syncAutoFreeLines env st m).items).1 kv.1 = true := by
    intro kv hkv
    exact buildSyncFold_hasKey (hkeys kv.1 (List.mem_map_of_mem _ hkv)) _ _
      (Or.inr (hwit kv hkv))
  obtain ⟨hframe, _⟩ := pass2_frame env hbs m
      ⟨(syncAutoFreeLines env st m).items,
        (buildSyncIndex (syncAutoFreeLines env st m).items).1,
        (buildSyncIndex (syncAutoFreeLines env st m).items).2⟩
      (fun kv hkv => ⟨hidx kv hkv, hqs kv hkv⟩)
  have hframe' : (syncLoop env (syncAutoFreeLines env st m).items m).items.map tagIdOf
      = (syncAutoFreeLines env st m).items.map tagIdOf := hframe
  have hnotrem : ∀ l ∈ (syncLoop env (syncAutoFreeLines env st m).items m).items,
      removableTag (m.map Prod.fst) l = false := by
    intro l hl
    have hmemtid : tagIdOf l ∈ (syncAutoFreeLines env st m).items.map tagIdOf := by
      rw [← hframe']
      exact List.mem_map_of_mem _ hl
    rcases List.mem_map.mp hmemtid with ⟨l1, hl1, htid⟩
    have hl1f : removableTag (m.map Prod.fst) l1 = false := by
      have hl1' : l1 ∈ (syncLoop env st.items m).items.filter
          (fun x => !(removableTag (m.map Prod.fst) x)) := hl1
      have h2 := (List.mem_filter.mp hl1').2
      simpa using h2
    rw [← removableTag_congr (tagIdOf_tag htid)]
    exact hl1f
  have hkeep : (syncLoop env (syncAutoFreeLines env st m).items m).items.filter
      (fun l => !(removableTag (m.map Prod.fst) l))
      = (syncLoop env (syncAutoFreeLines env st m).items m).items :=
    List.filter_eq_self.mpr (fun l hl => by rw [hnotrem l hl]; rfl)
  have hrem_nil : (syncLoop env (syncAutoFreeLines env st m).items m).items.filter
      (fun l => removableTag (m.map Prod.fst) l) = [] :=
    List.filter_eq_nil_iff.mpr (fun l hl => by simp [hnotrem l hl])
  constructor
  · show ((syncLoop env (syncAutoFreeLines env st m).items m).items.filter
        (fun l => !(removableTag (m.map Prod.fst) l))).map tagIdOf = _
    rw [hkeep, hframe']
  · show ((syncLoop env (syncAutoFreeLines env st m).items m).items.filter
        (fun l => removableTag (m.map Prod.fst) l)).foldl packedStep
          (syncAutoFreeLines env st m).packed_items = _
    rw [hrem_nil]
    rfl



theorem C5_sync_idempotent_witness :
    (syncAutoFreeLines {} (syncAutoFreeLines {} ⟨[], []⟩ [("RULE-1::FREE-ITEM::", wData)])
          [("RULE-1::FREE-ITEM::", wData)]).items.map tagIdOf
        = (syncAutoFreeLines {} ⟨[], []⟩ [("RULE-1::FREE-ITEM::", wData)]).items.map tagIdOf ∧
      (syncAutoFreeLines {} (syncAutoFreeLines {} ⟨[], []⟩ [("RULE-1::FREE-ITEM::", wData)])
          [("RULE-1::FREE-ITEM::", wData)]).packed_items
        = (syncAutoFreeLines {} ⟨[], []⟩ [("RULE-1::FREE-ITEM::", wData)]).packed_items :=
  C5_sync_idempotent {} ⟨[], []⟩ [("RULE-1::FREE-ITEM::", wData)] rfl (by simp)
    (by intro k hk; simp at hk; subst hk; decide)
    (by intro kv hkv; simp at hkv; subst hkv; decide)



theorem C5_counterexample :
    (syncAutoFreeLines {} ⟨[], []⟩ [("", cData)]).items.map Line.objId = [1] ∧
      (syncAutoFreeLines {} (syncAutoFreeLines {} ⟨[], []⟩ [("", cData)])
          [("", cData)]).items.map Line.objId = [1, 2] := by
  constructor
  · decide
  · decide

end Posa
